import Mathlib

/-!
Verification development for the cobbler item inheritance-resolution and
caching engine, and the ISC DHCP synchronization manager.

The definitions below are a shallow embedding of the Python sources
`cobbler/items/abstract/base_item.py`, `cobbler/items/abstract/item.py`,
`cobbler/items/abstract/item_inheritable.py` and
`cobbler/modules/managers/isc.py`.  Python objects are modelled by records
whose `dict` field mirrors the instance `__dict__` (an ordered association
list of underscore-prefixed field names), the item collections of the API
are a list of such records, and all recursive traversals over the mutable
object graph are made total with an explicit fuel argument, exhaustion being
reported through `Except`.  Helpers that live in modules outside the
embedded sources (enumeration constants, `utils.dict_annihilate`, the
`ItemCache` container, `api.find_items`) are modelled from the accompanying
specification and are marked as such in their doc comments.
-/

namespace Cobbler

/-- A value stored inside an attribute mapping such as `kernel_options`:
a string, an integer, a boolean, or a list of strings (the shapes the
embedded sources put into those mappings). -/
inductive DVal where
  | dstr : String → DVal
  | dint : Int → DVal
  | dbool : Bool → DVal
  | dlist : List String → DVal
deriving DecidableEq, Repr

/-- Value is the dynamic value universe used by item attributes: strings,
integers, booleans, enumeration members carrying their raw string value,
lists of strings, string-keyed mappings (kept in insertion order, as Python
dictionaries are), and mappings of sub-object dictionaries such as the
network-interface table of a system. -/
inductive Value where
  | vstr : String → Value
  | vint : Int → Value
  | vbool : Bool → Value
  | venum : String → Value
  | vlist : List String → Value
  | vdict : List (String × DVal) → Value
  | vobjdict : List (String × List (String × DVal)) → Value
deriving DecidableEq, Repr

/-- Modelled from the spec: the sentinel `INHERITED` value
(`enums.VALUE_INHERITED`, the module `cobbler.enums` is outside the
embedded sources) stored by an attribute that inherits from the logical
parent or from the settings. -/
def VALUE_INHERITED : Value := Value.vstr "<<inherit>>"

/-- Modelled from the spec: the sentinel deletion marker recognised by
dict-merge annihilation; a key whose value is this marker is removed from
the final merged mapping (`utils.dict_annihilate` is outside the embedded
sources). -/
def DVAL_DELETE : DVal := DVal.dstr "~"

/-- Prefix test on strings through their character lists (a form that the
kernel evaluates). -/
def strStartsWith (s pre : String) : Bool :=
  pre.data.isPrefixOf s.data

/-- Substring occurrence test on character lists. -/
def charsContainsSub (sub : List Char) : List Char → Bool
  | [] => sub.isEmpty
  | c :: rest => sub.isPrefixOf (c :: rest) || charsContainsSub sub rest

/-- Substring occurrence test on strings. -/
def strContainsSub (s sub : String) : Bool :=
  charsContainsSub sub.data s.data

/-- Python `str.lower` through the character list. -/
def strToLower (s : String) : String :=
  String.mk (s.data.map Char.toLower)

/-- Python slicing `s[n:]` through the character list. -/
def strDrop (s : String) (n : Nat) : String :=
  String.mk (s.data.drop n)

/-- Lookup of a key in an ordered association list, mirroring a Python
dictionary read. -/
def assocLookup {α : Type} (d : List (String × α)) (k : String) : Option α :=
  match d with
  | [] => none
  | (k1, v1) :: rest => if k1 = k then some v1 else assocLookup rest k

/-- Membership of a key in an ordered association list (`k in d`). -/
def assocHasKey {α : Type} (d : List (String × α)) (k : String) : Bool :=
  (assocLookup d k).isSome

/-- Python dictionary assignment `d[k] = v`: an existing key keeps its
position and gets the new value, a new key is appended at the end. -/
def assocSet {α : Type} (d : List (String × α)) (k : String) (v : α) :
    List (String × α) :=
  match d with
  | [] => [(k, v)]
  | (k1, v1) :: rest =>
    if k1 = k then (k1, v) :: rest else (k1, v1) :: assocSet rest k v

/-- Python `d.update(e)`: every pair of `e` is assigned into `d` in order. -/
def assocUpdate {α : Type} (d e : List (String × α)) : List (String × α) :=
  e.foldl (fun acc kv => assocSet acc kv.1 kv.2) d

/-- Python `del d[k]` performed on every occurrence of the key. -/
def assocErase {α : Type} (d : List (String × α)) (k : String) :
    List (String × α) :=
  d.filter (fun kv => !(kv.1 == k))

/-- Modelled from the spec: `utils.dict_annihilate` (outside the embedded
sources) removes every key whose value is the sentinel deletion marker from
the merged mapping, letting a child unset an inherited key. -/
def dict_annihilate (d : List (String × DVal)) : List (String × DVal) :=
  d.filter (fun kv => !(kv.2 == DVAL_DELETE))

/-- Global settings object: named fields consulted during resolution
(`hasattr`/`getattr` become key membership and lookup) together with the
booleans read directly by the cache layer and the DHCP manager. -/
structure SettingsT where
  fields : List (String × Value)
  cache_enabled : Bool
  always_write_dhcp_entries : Bool
deriving DecidableEq, Repr

/-- An item record.  `dict` mirrors the underscore-prefixed instance
`__dict__` entries (`_name`, `_parent`, `_depth`, `_uid`, raw resolvable
attributes, …).  The attributes that `Item.__is_dict_key` excludes from the
serialized view are carried as dedicated fields: the two memo slots of the
`ItemCache` (modelled from the spec: a raw snapshot and a resolved
snapshot), the `_inmemory` flag and the `_has_initialized` flag. -/
structure ItemR where
  typeName : String
  collectionType : String
  hasInitialized : Bool
  inmemory : Bool
  cacheRaw : Option (List (String × Value))
  cacheResolved : Option (List (String × Value))
  dict : List (String × Value)
deriving DecidableEq, Repr

/-- Read a string-valued field of the instance dictionary, defaulting to the
empty string. -/
def strField (i : ItemR) (k : String) : String :=
  match assocLookup i.dict k with
  | some (Value.vstr s) => s
  | _ => ""

/-- Read an integer-valued field of the instance dictionary, defaulting to
zero. -/
def intField (i : ItemR) (k : String) : Int :=
  match assocLookup i.dict k with
  | some (Value.vint n) => n
  | _ => 0

/-- The item's `name` property. -/
def itemName (i : ItemR) : String := strField i "_name"

/-- The item's `uid` property, its identity for equality and hashing. -/
def itemUid (i : ItemR) : String := strField i "_uid"

/-- The item's stored structural parent reference `_parent`. -/
def itemParentName (i : ItemR) : String := strField i "_parent"

/-- The item's `depth` property. -/
def itemDepth (i : ItemR) : Int := intField i "_depth"

/-- The world holds every item of every collection type together with the
global settings: it stands for the state reachable through the Cobbler API
object during resolution and cache invalidation. -/
structure World where
  items : List ItemR
  settings : SettingsT
deriving DecidableEq, Repr

/-- `api.get_items(collection_type)`: all items of one collection type. -/
def get_items (w : World) (ctype : String) : List ItemR :=
  w.items.filter (fun i => i.collectionType == ctype)

/-- `collection.get(name)`: lookup of an item by name inside one
collection. -/
def collectionGet (w : World) (ctype : String) (name : String) :
    Option ItemR :=
  (get_items w ctype).find? (fun i => itemName i == name)

/-- `Item.__is_dict_key`: whether an instance attribute takes part in the
dictionary view; underscore-prefixed, no double underscore, and not one of
the excluded bookkeeping fields. -/
def is_dict_key (name : String) : Bool :=
  strStartsWith name "_" &&
  !(strContainsSub name "__") &&
  !(["_last_cached_mtime", "_cache", "_supported_boot_loaders",
     "_has_initialized", "_inmemory"].contains name)

/-- Attribute names defined with the `InheritableProperty` decorator in the
embedded `Item` class. -/
def inheritableScalarProps : List String := ["owners", "mgmt_classes"]

/-- Attribute names defined with the `InheritableDictProperty` decorator in
the embedded `Item` class.  Note that `boot_files` and `template_files` are
plain `LazyProperty` members and are deliberately absent. -/
def inheritableDictProps : List String :=
  ["kernel_options", "kernel_options_post", "autoinstall_meta",
   "mgmt_parameters", "fetchable_files"]

/-- `isinstance(attr, (InheritableProperty, InheritableDictProperty))` for
the class attribute named `p`. -/
def isInheritableProp (p : String) : Bool :=
  inheritableScalarProps.contains p || inheritableDictProps.contains p

/-- The static cross-type dependency table `InheritableItem.TYPE_DEPENDENCIES`:
for an item type, the list of (dependent type, referencing attribute)
pairs. -/
def TYPE_DEPENDENCIES (t : String) : List (String × String) :=
  if t = "package" then [("mgmtclass", "packages")]
  else if t = "file" then [("mgmtclass", "files"), ("image", "file")]
  else if t = "mgmtclass" then
    [("distro", "mgmt_classes"), ("profile", "mgmt_classes"),
     ("system", "mgmt_classes")]
  else if t = "repo" then [("profile", "repos")]
  else if t = "distro" then [("profile", "distro")]
  else if t = "menu" then
    [("menu", "parent"), ("image", "menu"), ("profile", "menu")]
  else if t = "profile" then [("profile", "parent"), ("system", "profile")]
  else if t = "image" then [("system", "image")]
  else []

/-- The upward half of `InheritableItem.LOGICAL_INHERITANCE`: for an item
type, the (previous level type, attribute holding its name) pairs used by
`get_conceptual_parent`. -/
def LOGICAL_INHERITANCE_UP (t : String) : Option (List (String × String)) :=
  if t = "distro" then some []
  else if t = "profile" then some [("distro", "distro")]
  else if t = "image" then some []
  else if t = "system" then some [("image", "image"), ("profile", "profile")]
  else none

/-- The `parent` property getter: empty reference gives none, otherwise the
item of the same collection type registered under the referenced name. -/
def parentItem (w : World) (i : ItemR) : Option ItemR :=
  if itemParentName i = "" then none
  else collectionGet w i.collectionType (itemParentName i)

/-- Climb the structural parent chain to its topmost member, the first loop
of `get_conceptual_parent`, bounded by fuel. -/
def climbToRoot (fuel : Nat) (w : World) (i : ItemR) : ItemR :=
  match fuel with
  | 0 => i
  | Nat.succ fuel =>
    match parentItem w i with
    | none => i
    | some p => climbToRoot fuel w p

/-- Modelled from the spec: `api.find_items(t, name=n, return_list=False)`
(the API module is outside the embedded sources) looks the item up by name
in the collection of the given type. -/
def find_items_by_name (w : World) (t : String) (n : String) : Option ItemR :=
  collectionGet w t n

/-- Scan the upward logical-inheritance edges in order and return the first
ancestor whose referencing attribute on `curr` is populated and whose name
is registered; the inner loop of `get_conceptual_parent`. -/
def conceptualHit (w : World) (curr : ItemR) :
    List (String × String) → Option ItemR
  | [] => none
  | (prevType, prevAttr) :: rest =>
    let prevName := strField curr ("_" ++ prevAttr)
    if prevName ≠ "" then
      match find_items_by_name w prevType prevName with
      | some hit => some hit
      | none => conceptualHit w curr rest
    else conceptualHit w curr rest

/-- `InheritableItem.get_conceptual_parent`: climb to the root of the
same-type chain, then follow the first populated upward edge of the logical
inheritance table to a differently-typed ancestor. -/
def get_conceptual_parent (fuel : Nat) (w : World) (i : ItemR) :
    Option ItemR :=
  let curr := climbToRoot fuel w i
  match LOGICAL_INHERITANCE_UP curr.typeName with
  | none => none
  | some prevLevels => conceptualHit w curr prevLevels

/-- `InheritableItem.logical_parent`: the structural parent when set and
resolvable, otherwise the conceptual parent. -/
def logical_parent (fuel : Nat) (w : World) (i : ItemR) : Option ItemR :=
  match parentItem w i with
  | some p => some p
  | none => get_conceptual_parent fuel w i

/-- `InheritableItem.children`: the items of the same collection type whose
structural parent reference equals this item's name. -/
def children (w : World) (i : ItemR) : List ItemR :=
  (get_items w i.collectionType).filter
    (fun obj => itemParentName obj == itemName i)

/-- `InheritableItem.tree_walk`: depth-first pre-order traversal of the
children relation, bounded by fuel. -/
def tree_walk (fuel : Nat) (w : World) (i : ItemR) : List ItemR :=
  match fuel with
  | 0 => []
  | Nat.succ fuel =>
    (children w i).flatMap (fun child => child :: tree_walk fuel w child)

/-- Whether the raw attribute value references the given name: equal to it
as a string, or containing it as a list member.  Modelled from the spec:
this is the search predicate of `api.find_items(t, obj: attr = name)`
used by `descendants` (the API module is outside the embedded sources). -/
def attrReferences (v : Value) (name : String) : Bool :=
  match v with
  | Value.vstr s => s == name
  | Value.vlist l => l.contains name
  | _ => false

/-- Modelled from the spec: `api.find_items(t, criteria, return_list=True)`
restricted to the single attribute criterion used by `descendants`. -/
def find_items_by_attr (w : World) (t : String) (attr : String)
    (name : String) : List ItemR :=
  (get_items w t).filter (fun j =>
    match assocLookup j.dict ("_" ++ attr) with
    | some v => attrReferences v name
    | none => false)

/-- Append the item to the accumulator unless an item of the same uid is
already present; the Python `set` of items compares by uid. -/
def insertByUid (acc : List ItemR) (j : ItemR) : List ItemR :=
  if acc.any (fun k => itemUid k == itemUid j) then acc else acc ++ [j]

/-- Union of item lists with uid-based deduplication. -/
def unionByUid (acc : List ItemR) (js : List ItemR) : List ItemR :=
  js.foldl insertByUid acc

/-- `InheritableItem.descendants`: the structural subtree of the item plus,
for the item itself and every subtree member, every item of another type
referencing it through the static dependency table, applied transitively to
the dependents, deduplicated by identity.  Recursion through dependents is
bounded by fuel. -/
def descendants (fuel : Nat) (w : World) (i : ItemR) : List ItemR :=
  match fuel with
  | 0 => []
  | Nat.succ fuel =>
    let childs := tree_walk (fuel + 1) w i
    let results := unionByUid [] childs
    let withSelf := childs ++ [i]
    withSelf.foldl (fun results child =>
      (TYPE_DEPENDENCIES child.collectionType).foldl (fun results dep =>
        let depItems := find_items_by_attr w dep.1 dep.2 (itemName child)
        let results := unionByUid results depItems
        depItems.foldl (fun results depItem =>
          unionByUid results (descendants fuel w depItem)) results)
        results)
      results

/-- Modelled from the spec: `ItemCache.get_dict_cache(resolved)` returns
the memo slot for the requested mode (the `ItemCache` class is outside the
embedded sources; the spec describes two memoized dictionary snapshots). -/
def get_dict_cache (i : ItemR) (resolved : Bool) :
    Option (List (String × Value)) :=
  if resolved then i.cacheResolved else i.cacheRaw

/-- Modelled from the spec: `ItemCache.set_dict_cache(value, resolved)`
stores (or clears, for `None`) the memo slot for the requested mode. -/
def set_dict_cache (i : ItemR) (v : Option (List (String × Value)))
    (resolved : Bool) : ItemR :=
  if resolved then { i with cacheResolved := v } else { i with cacheRaw := v }

/-- Modelled from the spec: `ItemCache.clean_dict_cache()` empties both
memo slots. -/
def clean_dict_cache_slots (i : ItemR) : ItemR :=
  { i with cacheRaw := none, cacheResolved := none }

/-- Clear the resolved memo slot of every world item whose identity matches
one of the given items; the loop `dep_item.cache.set_dict_cache(None, True)`
of `Item._clean_dict_cache` acting on the shared object graph. -/
def clearResolvedCaches (w : World) (ds : List ItemR) : World :=
  { w with items := w.items.map (fun j =>
      if ds.any (fun d => itemUid d == itemUid j) then
        { j with cacheResolved := none }
      else j) }

/-- Clear both memo slots of the world copy of the given item; the final
`self.cache.clean_dict_cache()` of `Item._clean_dict_cache` as seen from
the shared object graph. -/
def clearOwnCacheInWorld (w : World) (i : ItemR) : World :=
  { w with items := w.items.map (fun j =>
      if itemUid j == itemUid i then clean_dict_cache_slots j else j) }

/-- `Item._clean_dict_cache`: when caching is enabled, an attribute name is
given, the item is in memory, the class attribute is inheritable, the item
lives in a non-root collection and is registered there under its name, the
resolved memo slot of every descendant is cleared; the item's own two memo
slots are always cleared. -/
def clean_dict_cache (fuel : Nat) (w : World) (i : ItemR)
    (name : Option String) : World × ItemR :=
  if !w.settings.cache_enabled then (w, i)
  else
    let w1 :=
      match name with
      | some n =>
        if i.inmemory
            && isInheritableProp (strDrop n 1)
            && !(i.collectionType == "generic")
            && (collectionGet w i.collectionType (itemName i)).isSome then
          clearResolvedCaches w (descendants fuel w i)
        else w
      | none => w
    (clearOwnCacheInWorld w1 i, clean_dict_cache_slots i)

/-- `Item.clean_cache`: a no-op unless the item is in memory. -/
def clean_cache (fuel : Nat) (w : World) (i : ItemR) (name : Option String) :
    World × ItemR :=
  if i.inmemory then clean_dict_cache fuel w i name else (w, i)

/-- `Item.__setattr__` for a fully constructed object: writing a
dictionary-view attribute first runs `clean_cache` with the attribute name,
then the assignment is applied to the instance dictionary. -/
def setattr_raw (fuel : Nat) (w : World) (i : ItemR) (name : String)
    (v : Value) : World × ItemR :=
  if is_dict_key name && i.hasInitialized then
    let wi := clean_cache fuel w i (some name)
    (wi.1, { wi.2 with dict := assocSet wi.2.dict name v })
  else
    (w, { i with dict := assocSet i.dict name v })

/-- `hasattr(settings, n)` on the settings object. -/
def settingsHas (s : SettingsT) (n : String) : Bool :=
  assocHasKey s.fields n

/-- `getattr(settings, n)` on the settings object. -/
def settingsGet (s : SettingsT) (n : String) : Option Value :=
  assocLookup s.fields n

/-- `hasattr(item, p)` for a resolvable property: the getter raises exactly
when the backing underscore field is missing, so attribute presence is
membership of `_p` in the instance dictionary. -/
def hasattrProp (i : ItemR) (p : String) : Bool :=
  assocHasKey i.dict ("_" ++ p)

/-- The behaviour class of a property getter of the embedded `Item`
class. -/
inductive GetterKind where
  | scalarInherit
  | dictInherit
  | rawField
deriving DecidableEq, Repr

/-- Getter dispatch table of the embedded `Item` class: `owners` and
`mgmt_classes` (and the `proxy_url_` family) resolve through `_resolve`;
the dict-merge attributes and `boot_files` resolve through `_resolve_dict`
(the `boot_files` getter calls `_resolve_dict` although the property is a
plain `LazyProperty`); anything else returns the raw field. -/
def getterKind (p : String) : GetterKind :=
  if inheritableScalarProps.contains p || strStartsWith p "proxy_url_" then
    GetterKind.scalarInherit
  else if inheritableDictProps.contains p || p = "boot_files" then
    GetterKind.dictInherit
  else GetterKind.rawField

/-- `Item._resolve`, parameterised over the recursive property read used
for the logical parent (`getattr(logical_parent, property_name)`) and the
logical-parent accessor.  A raw value other than the inherit sentinel is
returned as stored.  When the value is the sentinel, the logical parent is
consulted first, then the settings field, then its `default_` variant.
When none applies, the source constructs an `AttributeError` without
raising it and falls through to `return attribute_value`, so the sentinel
itself is returned; the model reproduces that fall-through. -/
def resolveStep (recurse : World → ItemR → String → Except String Value)
    (parentOf : World → ItemR → Option ItemR)
    (w : World) (i : ItemR) (p : String) : Except String Value :=
  let property_name := if strStartsWith p "proxy_url_" then "proxy" else p
  let settings_name := if property_name = "owners" then "default_ownership" else p
  let attr_key := "_" ++ property_name
  match assocLookup i.dict attr_key with
  | none => Except.error ("AttributeError: item does not have property " ++ p)
  | some attribute_value =>
    let settings := w.settings
    if attribute_value = VALUE_INHERITED then
      let fallback : Except String Value :=
        if settingsHas settings settings_name then
          Except.ok ((settingsGet settings settings_name).getD attribute_value)
        else if settingsHas settings ("default_" ++ settings_name) then
          Except.ok
            ((settingsGet settings ("default_" ++ settings_name)).getD
              attribute_value)
        else
          Except.ok attribute_value
      match parentOf w i with
      | some lp =>
        if hasattrProp lp property_name then recurse w lp property_name
        else fallback
      | none => fallback
    else Except.ok attribute_value

/-- Require a mapping value, as `dict.update` does. -/
def expectDict : Value → Except String (List (String × DVal))
  | Value.vdict d => Except.ok d
  | _ => Except.error "TypeError: update requires a mapping"

/-- `Item._resolve_dict`, parameterised like `resolveStep`: start from an
empty mapping, merge in the logical parent's resolved value when the parent
exposes the property (otherwise the settings field), overlay the item's own
raw value when it is not the inherit sentinel, and annihilate deletion
markers. -/
def resolveDictStep (recurse : World → ItemR → String → Except String Value)
    (parentOf : World → ItemR → Option ItemR)
    (w : World) (i : ItemR) (p : String) : Except String Value := do
  let attr_key := "_" ++ p
  match assocLookup i.dict attr_key with
  | none => Except.error ("AttributeError: item does not have property " ++ p)
  | some attribute_value =>
    let settings := w.settings
    let fromSettings : Except String (List (String × DVal)) :=
      if settingsHas settings p then
        expectDict ((settingsGet settings p).getD (Value.vdict []))
      else pure []
    let base ←
      match parentOf w i with
      | some lp =>
        if hasattrProp lp p then do
          let pv ← recurse w lp p
          let pd ← expectDict pv
          pure (assocUpdate [] pd)
        else do
          let sd ← fromSettings
          pure (assocUpdate [] sd)
      | none => do
        let sd ← fromSettings
        pure (assocUpdate [] sd)
    let merged ←
      if !(attribute_value == VALUE_INHERITED) then do
        let od ← expectDict attribute_value
        pure (assocUpdate base od)
      else pure base
    pure (Value.vdict (dict_annihilate merged))

/-- `getattr(item, p)` for the embedded property table, with fuel bounding
recursion through the logical-parent chain. -/
def getProp : Nat → World → ItemR → String → Except String Value
  | 0, _, _, _ =>
    Except.error "RecursionError: resolution depth exceeded"
  | Nat.succ fuel, w, i, p =>
    match getterKind p with
    | GetterKind.scalarInherit =>
      resolveStep (getProp fuel) (logical_parent fuel) w i p
    | GetterKind.dictInherit =>
      resolveDictStep (getProp fuel) (logical_parent fuel) w i p
    | GetterKind.rawField =>
      match assocLookup i.dict ("_" ++ p) with
      | some v => Except.ok v
      | none =>
        Except.error ("AttributeError: item does not have property " ++ p)

/-- Python `.value` on a resolved enumeration member. -/
def enumValue : Value → Except String Value
  | Value.venum s => Except.ok (Value.vstr s)
  | _ => Except.error "AttributeError: value"

/-- The projection loop of `Item.to_dict` over the instance dictionary:
enumeration members project to their raw value (resolved first when
requested), the interfaces table dict-ifies its sub-objects, lists and
mappings are deep-copied (raw mode) or read through the property getter
(resolved mode), and an inherit-sentinel string is replaced by its resolved
value when requested. -/
def to_dict_entries (fuel : Nat) (w : World) (i : ItemR) (resolved : Bool) :
    List (String × Value) → Except String (List (String × Value))
  | [] => Except.ok []
  | (key, key_value) :: rest => do
    let tail ← to_dict_entries fuel w i resolved rest
    if is_dict_key key then
      let new_key := strToLower (strDrop key 1)
      let projected : Except String Value :=
        match key_value with
        | Value.venum s =>
          if resolved then do
            let rv ← getProp fuel w i new_key
            enumValue rv
          else pure (Value.vstr s)
        | Value.vobjdict ifaces =>
          -- each NetworkInterface sub-object is dict-ified; modelled as its
          -- stored mapping
          pure (Value.vobjdict ifaces)
        | Value.vlist l => pure (Value.vlist l)
        | Value.vdict d =>
          if resolved then getProp fuel w i new_key else pure (Value.vdict d)
        | Value.vstr s =>
          if Value.vstr s == VALUE_INHERITED && resolved then
            getProp fuel w i (strDrop key 1)
          else pure (Value.vstr s)
        | v => pure v
      let v ← projected
      pure ((new_key, v) :: tail)
    else pure tail

/-- `Item.to_dict`: a non-hydrated item would deserialize from the backing
store, which is outside this model; otherwise return the memo snapshot for
the requested mode when present, else project every stored attribute, add
the two legacy aliases, store the result in the memo slot and return it. -/
def to_dict (fuel : Nat) (w : World) (i : ItemR) (resolved : Bool) :
    Except String (List (String × Value) × ItemR) :=
  if !i.inmemory then
    Except.error "deserialize: backing store not modelled"
  else
    match get_dict_cache i resolved with
    | some cached => Except.ok (cached, i)
    | none => do
      let value ← to_dict_entries fuel w i resolved i.dict
      let value :=
        match assocLookup value "autoinstall" with
        | some v => assocSet value "kickstart" v
        | none => value
      let value :=
        match assocLookup value "autoinstall_meta" with
        | some v => assocSet value "ks_meta" v
        | none => value
      Except.ok (value, set_dict_cache i (some value) resolved)

/-- Modelled from the spec: `input_converters.input_string_or_list`
(outside the embedded sources).  The inherit sentinel is kept, an empty
string becomes the empty list, a list is kept, and a non-empty string is
kept as a single-element list (the delimiter splitting of the converter is
not needed by the embedded behaviour). -/
def input_string_or_list : Value → Except String Value
  | Value.vstr s =>
    if Value.vstr s = VALUE_INHERITED then Except.ok VALUE_INHERITED
    else if s = "" then Except.ok (Value.vlist [])
    else Except.ok (Value.vlist [s])
  | Value.vlist l => Except.ok (Value.vlist l)
  | _ => Except.error "TypeError: input must be str or list"

/-- Modelled from the spec: `input_converters.input_string_or_dict`
(outside the embedded sources).  The inherit sentinel is kept, a mapping is
kept, an empty string becomes the empty mapping; the space-delimited
parsing of non-empty strings is outside the embedded behaviour and is
reported as a conversion failure. -/
def input_string_or_dict : Value → Except String Value
  | Value.vstr s =>
    if Value.vstr s = VALUE_INHERITED then Except.ok VALUE_INHERITED
    else if s = "" then Except.ok (Value.vdict [])
    else Except.error "TypeError: string parsing not modelled"
  | Value.vdict d => Except.ok (Value.vdict d)
  | _ => Except.error "TypeError: input must be str or dict"

/-- Modelled from the spec: the `_no_inherit` variant of the dictionary
converter rejects the inherit sentinel. -/
def input_string_or_dict_no_inherit : Value → Except String Value
  | Value.vstr s =>
    if Value.vstr s = VALUE_INHERITED then
      Except.error "ValueError: inherit is not allowed"
    else if s = "" then Except.ok (Value.vdict [])
    else Except.error "TypeError: string parsing not modelled"
  | Value.vdict d => Except.ok (Value.vdict d)
  | _ => Except.error "TypeError: input must be str or dict"

/-- A character allowed by `RE_OBJECT_NAME`. -/
def nameCharOk (c : Char) : Bool :=
  c.isAlpha || c.isDigit || c = '_' || c = '-' || c = '.' || c = ':'

/-- The `name` property setter of `BaseItem`: only strings of characters
from the allowed class are accepted. -/
def validName (s : String) : Bool :=
  s.toList.all nameCharOk

/-- The `parent` property setter of `InheritableItem`: only strings are
accepted, the empty string clears the reference, self-reference is
rejected, the referenced parent must already be registered in the item's
collection, and on success the reference is stored and `depth` becomes the
parent's depth plus one (both writes pass through `__setattr__`). -/
def set_parent (fuel : Nat) (w : World) (i : ItemR) (v : Value) :
    Except String (World × ItemR) :=
  match v with
  | Value.vstr parent =>
    if parent = "" then Except.ok (setattr_raw fuel w i "_parent" (Value.vstr ""))
    else if parent = itemName i then
      Except.error "CX: self parentage is weird"
    else
      match collectionGet w i.collectionType parent with
      | none =>
        Except.error "CX: parent not found, inheritance not possible"
      | some found =>
        let wi := setattr_raw fuel w i "_parent" (Value.vstr parent)
        Except.ok
          (setattr_raw fuel wi.1 wi.2 "_depth" (Value.vint (itemDepth found + 1)))
  | _ => Except.error "TypeError: parent must be of type str"

/-- `setattr(item, p, v)` through the property setters of the embedded
classes.  Unknown names fall back to a plain instance-dictionary write, as
Python `setattr` does for attributes without a property. -/
def setattrProp (fuel : Nat) (w : World) (i : ItemR) (p : String)
    (v : Value) : Except String (World × ItemR) :=
  if p = "name" then
    match v with
    | Value.vstr s =>
      if validName s then Except.ok (setattr_raw fuel w i "_name" (Value.vstr s))
      else Except.error "ValueError: invalid characters in name"
    | _ => Except.error "TypeError: name must be of type str"
  else if p = "comment" then
    Except.ok (setattr_raw fuel w i "_comment" v)
  else if p = "depth" then
    match v with
    | Value.vint n => Except.ok (setattr_raw fuel w i "_depth" (Value.vint n))
    | _ => Except.error "TypeError: depth needs to be of type int"
  else if p = "ctime" then
    match v with
    | Value.vint n => Except.ok (setattr_raw fuel w i "_ctime" (Value.vint n))
    | _ => Except.error "TypeError: ctime needs to be of type float"
  else if p = "mtime" then
    match v with
    | Value.vint n => Except.ok (setattr_raw fuel w i "_mtime" (Value.vint n))
    | _ => Except.error "TypeError: mtime needs to be of type float"
  else if p = "parent" then
    set_parent fuel w i v
  else if p = "owners" || p = "mgmt_classes" then
    match v with
    | Value.vstr s => do
      let converted ← input_string_or_list (Value.vstr s)
      Except.ok (setattr_raw fuel w i ("_" ++ p) converted)
    | Value.vlist l => do
      let converted ← input_string_or_list (Value.vlist l)
      Except.ok (setattr_raw fuel w i ("_" ++ p) converted)
    | _ => Except.error "TypeError: must be str or list"
  else if p = "kernel_options" || p = "kernel_options_post"
      || p = "autoinstall_meta" || p = "fetchable_files"
      || p = "boot_files" then do
    let converted ← input_string_or_dict v
    Except.ok (setattr_raw fuel w i ("_" ++ p) converted)
  else if p = "template_files" then do
    let converted ← input_string_or_dict_no_inherit v
    Except.ok (setattr_raw fuel w i "_template_files" converted)
  else if p = "mgmt_parameters" then
    match v with
    | Value.vstr s =>
      if Value.vstr s = VALUE_INHERITED then
        Except.ok (setattr_raw fuel w i "_mgmt_parameters" VALUE_INHERITED)
      else if s = "" then
        Except.ok (setattr_raw fuel w i "_mgmt_parameters" (Value.vdict []))
      else Except.error "TypeError: YAML parsing not modelled"
    | Value.vdict d =>
      Except.ok (setattr_raw fuel w i "_mgmt_parameters" (Value.vdict d))
    | _ => Except.error "TypeError: mgmt_parameters must be of type str or dict"
  else if p = "is_subobject" then
    match v with
    | Value.vbool b =>
      Except.ok (setattr_raw fuel w i "_is_subobject" (Value.vbool b))
    | _ => Except.error "TypeError: is_subobject needs to be of type bool"
  else if p = "inmemory" then
    match v with
    | Value.vbool b => Except.ok (w, { i with inmemory := b })
    | _ => Except.error "TypeError: inmemory needs to be of type bool"
  else if p = "uid" then
    -- the relocation guard of the `uid` setter evaluates
    -- `Item.COLLECTION_TYPE`, but its module never imports `Item`: when the
    -- assigned uid differs from the stored one the comparison is reached
    -- and raises NameError; an equal uid short-circuits the guard and falls
    -- through to the plain assignment
    match assocLookup i.dict "_uid" with
    | none => Except.error "AttributeError: item does not have attribute _uid"
    | some stored =>
      if stored = v then Except.ok (setattr_raw fuel w i "_uid" v)
      else Except.error "NameError: name Item is not defined"
  else if p = "cache" || p = "logical_parent" || p = "children"
      || p = "descendants" || p = "get_parent" then
    -- read-only properties of the embedded classes define no setter, so
    -- assignment raises AttributeError
    Except.error "AttributeError: cannot set attribute"
  else
    Except.ok (setattr_raw fuel w i p v)

/-- `Item._remove_depreacted_dict_keys`: the legacy keys are popped from
the mapping before any other processing. -/
def remove_depreacted_dict_keys (d : List (String × Value)) :
    List (String × Value) :=
  assocErase (assocErase (assocErase d "ks_meta") "kickstart") "children"

/-- The two failure modes of `Item.from_dict`: a wrapped setter failure,
and the final unknown-key failure naming the keys that could not be set. -/
inductive FromDictErr where
  | attrErr : String → FromDictErr
  | keyErr : List String → FromDictErr
  | uncaught : String → FromDictErr
deriving DecidableEq, Repr

/-- `hasattr(item, nm)` for an underscore-prefixed internal field name:
either a key of the instance dictionary or one of the instance attributes
carried as record fields of the embedding. -/
def hasInternalField (i : ItemR) (nm : String) : Bool :=
  assocHasKey i.dict nm ||
  ["_inmemory", "_has_initialized", "_cache", "_last_cached_mtime"].contains
    nm

/-- The key-application loop of `Item.from_dict`: each key is lowercased,
matched against the underscore-prefixed internal fields, applied through
the property setter when recognised, and collected as unrecognised
otherwise.  A setter failure aborts the loop keeping the partially applied
state; an `AttributeError` is re-raised wrapped, every other exception
escapes the AttributeError-only handler unchanged. -/
def from_dict_loop (fuel : Nat) (w : World) (i : ItemR) :
    List (String × Value) → List String →
    (World × ItemR) × List String × Option FromDictErr
  | [], unrec => ((w, i), unrec, none)
  | (k, v) :: rest, unrec =>
    let lowered := strToLower k
    if hasInternalField i ("_" ++ lowered) then
      match setattrProp fuel w i lowered v with
      | Except.ok wi => from_dict_loop fuel wi.1 wi.2 rest unrec
      | Except.error e =>
        -- `from_dict` catches only AttributeError and re-raises it wrapped;
        -- any other exception type propagates out of the loop unchanged
        ((w, i), unrec,
          some (if strStartsWith e "AttributeError" then
            FromDictErr.attrErr
              ("Attribute " ++ lowered ++ " could not be set: " ++ e)
          else FromDictErr.uncaught e))
    else from_dict_loop fuel w i rest (unrec ++ [k])

/-- `Item.from_dict`: drop the deprecated legacy keys, return unchanged on
an empty remainder, lower the initialisation flag, run the application
loop, restore the flag, clean the cache, and fail with the set of keys that
could not be matched when any remain; the applied fields are not rolled
back on failure. -/
def from_dict (fuel : Nat) (w : World) (i : ItemR)
    (d : List (String × Value)) : (World × ItemR) × Option FromDictErr :=
  let d1 := remove_depreacted_dict_keys d
  if d1.isEmpty then ((w, i), none)
  else
    let old := i.hasInitialized
    let res := from_dict_loop fuel w { i with hasInitialized := false } d1 []
    match res.2.2 with
    | some e => (res.1, some e)
    | none =>
      let i2 := { res.1.2 with hasInitialized := old }
      let wi := clean_cache fuel res.1.1 i2 none
      if res.2.1.isEmpty then (wi, none)
      else (wi, some (FromDictErr.keyErr res.2.1))

/-- A bare Python object under construction: only the instance dictionary,
which starts empty. -/
structure PyObj where
  dict : List (String × Value)
deriving DecidableEq, Repr

/-- `Item.__setattr__` as executed during `__init__`: when the name is a
dictionary-view attribute, the guard reads `self._has_initialized`; when
that attribute has never been assigned the read raises `AttributeError`.
When the guard passes and the flag is true, `clean_cache` would run (the
returned boolean records whether it did); then the plain assignment is
applied. -/
def init_setattr (st : PyObj) (name : String) (v : Value) :
    Except String (PyObj × Bool) :=
  if is_dict_key name then
    match assocLookup st.dict "_has_initialized" with
    | none =>
      Except.error "AttributeError: object has no attribute _has_initialized"
    | some hv =>
      if hv = Value.vbool true then
        Except.ok ({ dict := assocSet st.dict name v }, true)
      else
        Except.ok ({ dict := assocSet st.dict name v }, false)
  else Except.ok ({ dict := assocSet st.dict name v }, false)

/-- Run a sequence of constructor writes, counting how many of them
triggered the cache-invalidation path. -/
def runInitWrites (st : PyObj) :
    List (String × Value) → Except String (PyObj × Nat)
  | [] => Except.ok (st, 0)
  | (k, v) :: rest => do
    let stb ← init_setattr st k v
    let stn ← runInitWrites stb.1 rest
    Except.ok (stn.1, stn.2 + (if stb.2 then 1 else 0))

/-- The attribute writes of `BaseItem.__init__` followed by those of
`Item.__init__` (without keyword arguments), in source order.  The write of
`_has_initialized = False` happens only after every `BaseItem.__init__`
write. -/
def ITEM_INIT_WRITES (uid : String) : List (String × Value) :=
  [("_ctime", Value.vint 0),
   ("_mtime", Value.vint 0),
   ("_uid", Value.vstr uid),
   ("_name", Value.vstr ""),
   ("_comment", Value.vstr ""),
   ("logger", Value.vstr ""),
   ("api", Value.vstr ""),
   ("_has_initialized", Value.vbool false),
   ("_parent", Value.vstr ""),
   ("_depth", Value.vint 0),
   ("_kernel_options", Value.vdict []),
   ("_kernel_options_post", Value.vdict []),
   ("_autoinstall_meta", Value.vdict []),
   ("_fetchable_files", Value.vdict []),
   ("_boot_files", Value.vdict []),
   ("_template_files", Value.vdict []),
   ("_last_cached_mtime", Value.vint 0),
   ("_owners", VALUE_INHERITED),
   ("_cache", Value.vstr ""),
   ("_mgmt_classes", VALUE_INHERITED),
   ("_mgmt_parameters", Value.vdict []),
   ("_inmemory", Value.vbool true),
   ("_has_initialized", Value.vbool true)]

/-- `Item(api)`: running the constructor writes on a fresh object. -/
def item_init (uid : String) : Except String (PyObj × Nat) :=
  runInitWrites { dict := [] } (ITEM_INIT_WRITES uid)

/-- A network interface of a system, as read by the DHCP manager (the
fields of `NetworkInterface.to_dict` that `_gen_system_config` touches). -/
structure NetIface where
  interface_type : String
  interface_master : String
  mac_address : String
  ip_address : String
  ipv6_address : String
  netmask : String
  dns_name : String
  dhcp_tag : String
  if_gateway : String
  static : Bool
deriving DecidableEq, Repr

/-- The slice of a system consumed by `_gen_system_config`: its name, its
default gateway and its ordered interface table. -/
structure SystemR where
  name : String
  gateway : String
  interfaces : List (String × NetIface)
deriving DecidableEq, Repr

/-- The slice of a distro consumed by `_gen_system_config`: the operating
system version, the architecture (the `Archs` enumeration modelled by its
value string), the per-interface pxe config filename returned by
`get_config_filename` (modelled from the spec, the method is outside the
embedded sources), and the `to_dict` payload copied into each entry. -/
structure DistroR where
  os_version : String
  arch : String
  config_filenames : List (String × String)
  ddict : List (String × DVal)
deriving DecidableEq, Repr

/-- The blender output fields that `_gen_system_config` copies into every
entry, plus the optional system-level `dhcp_tag` consulted as a
fallback. -/
structure BlendData where
  next_server_v6 : String
  next_server_v4 : String
  filename : String
  netboot_enabled : Bool
  hostname : String
  owner : String
  enable_ipxe : Bool
  name_servers : List String
  mgmt_parameters : String
  dhcp_tag : Option String
deriving DecidableEq, Repr

/-- One finished per-MAC entry of the generated DHCP configuration: the
interface dictionary it started from plus every field the loop body wrote
into it. -/
structure DhcpEntry where
  base : NetIface
  gateway : String
  netmask : String
  ip_address : String
  ipv6_address : String
  entry_name : String
  distro : Option (List (String × DVal))
  next_server_v6 : String
  next_server_v4 : String
  filename : String
  filename_esxi : Option (String × String × String)
  netboot_enabled : Bool
  hostname : String
  owner : String
  enable_ipxe : Bool
  name_servers : List String
  mgmt_parameters : String
deriving DecidableEq, Repr

/-- Modelled from the spec: `System.is_management_supported` (outside the
embedded sources); per the manager's log message, a MAC, IPv4 or IPv6
address on some interface is required. -/
def is_management_supported (s : SystemR) : Bool :=
  s.interfaces.any (fun ni =>
    !(ni.2.mac_address == "") || !(ni.2.ip_address == "")
      || !(ni.2.ipv6_address == ""))

/-- The loop of `_IscManager._find_ip_addr`.  `for name, obj in
interfaces:` iterates the dictionary object itself, which yields its
string keys; tuple-unpacking a key succeeds only when the key has exactly
two characters (a two-character string unpacks into two one-character
strings, and `hasattr` of an address attribute on a string is always
false, so the guarded return is unreachable) and raises `ValueError`
otherwise.  The loop therefore either raises or falls through to the
final empty return. -/
def find_ip_addr_scan : List String → Except String String
  | [] => Except.ok ""
  | k :: rest =>
    if k.data.length = 2 then find_ip_addr_scan rest
    else Except.error "ValueError: cannot unpack interface key"

/-- `_IscManager._find_ip_addr`: an unknown ip version returns the empty
string before the loop; otherwise the loop over the interface keys runs
(see `find_ip_addr_scan`). -/
def find_ip_addr (interfaces : List (String × NetIface)) (pfx : String)
    (ip_version : String) : Except String String :=
  if strToLower ip_version = "ipv4" then
    find_ip_addr_scan (interfaces.map Prod.fst)
  else if strToLower ip_version = "ipv6" then
    find_ip_addr_scan (interfaces.map Prod.fst)
  else Except.ok ""

/-- The mutable state of the `_gen_system_config` loop: the per-tag
mapping under construction, the composite master indices already seen, the
MAC addresses marked for removal, and the generic-name counter. -/
structure GenState where
  dhcp_tags : List (String × List (String × DhcpEntry))
  processed : List String
  ignore_macs : List String
  generic_cnt : Nat
deriving DecidableEq, Repr

/-- The interface types treated as bond or bridge slaves. -/
def slaveTypes : List String :=
  ["bond_slave", "bridge_slave", "bonded_bridge_slave"]

/-- The PPC architecture family of the `Archs` enumeration. -/
def ppcArchs : List String := ["ppc", "ppc64", "ppc64le", "ppc64el"]

/-- The shared tail of the `_gen_system_config` loop body, after the slave
and non-slave branches agreed on the address, host and tag data: skip the
interface when the MAC is missing, derive the entry name, copy the blended
fields, apply the esxi and architecture filename special cases, honour the
static-entry skip, choose the tag and insert the entry under its MAC. -/
def gen_iface_common (aw : Bool) (blend : BlendData)
    (distro : Option DistroR) (st : GenState) (iname : String)
    (iface_obj : NetIface) (gateway netmask ip ipv6 host dhcp_tag : String)
    (mac : String) : GenState :=
  if mac = "" then st
  else
    let pair :=
      if host ≠ "" then
        (if iname = "eth0" then host else host ++ "-" ++ iname, st.generic_cnt)
      else
        ("generic" ++ toString (st.generic_cnt + 1), st.generic_cnt + 1)
    let entry_name := pair.1
    let cnt := pair.2
    let filename_esxi :=
      match distro with
      | some d =>
        if strStartsWith d.os_version "esxi" then
          some ("esxi/system", (assocLookup d.config_filenames iname).getD "",
            "mboot.efi")
        else none
      | none => none
    let filename :=
      match distro with
      | some d =>
        if !(strStartsWith d.os_version "esxi") && blend.filename = "" then
          if ppcArchs.contains d.arch then "grub/grub.ppc64le"
          else if d.arch = "aarch64" then "grub/grubaa64.efi"
          else blend.filename
        else blend.filename
      | none => blend.filename
    let st := { st with generic_cnt := cnt }
    if !aw && !blend.netboot_enabled && iface_obj.static then st
    else
      let tag := if dhcp_tag = "" then blend.dhcp_tag.getD "default" else dhcp_tag
      let entry : DhcpEntry :=
        { base := iface_obj
          gateway := gateway
          netmask := netmask
          ip_address := ip
          ipv6_address := ipv6
          entry_name := entry_name
          distro := (distro.map DistroR.ddict)
          next_server_v6 := blend.next_server_v6
          next_server_v4 := blend.next_server_v4
          filename := filename
          filename_esxi := filename_esxi
          netboot_enabled := blend.netboot_enabled
          hostname := blend.hostname
          owner := blend.owner
          enable_ipxe := blend.enable_ipxe
          name_servers := blend.name_servers
          mgmt_parameters := blend.mgmt_parameters }
      let tags :=
        if assocHasKey st.dhcp_tags tag then
          match assocLookup st.dhcp_tags tag with
          | some inner => assocSet st.dhcp_tags tag (assocSet inner mac entry)
          | none => st.dhcp_tags
        else st.dhcp_tags ++ [(tag, [(mac, entry)])]
      { st with dhcp_tags := tags }

/-- One iteration of the `_gen_system_config` interface loop.  A slave
interface whose master lacks an IPv4 or IPv6 address falls back to
`_find_ip_addr`, which can raise (see `find_ip_addr_scan`); the raise
propagates out of the generation. -/
def gen_iface (aw : Bool) (s : SystemR) (blend : BlendData)
    (distro : Option DistroR) (st : GenState) (iname : String)
    (iface_obj : NetIface) : Except String GenState :=
  let gateway :=
    if iface_obj.if_gateway ≠ "" then iface_obj.if_gateway else s.gateway
  let mac := iface_obj.mac_address
  if slaveTypes.contains iface_obj.interface_type then
    match assocLookup s.interfaces iface_obj.interface_master with
    | none => Except.ok st
    | some master =>
      let master_name := iface_obj.interface_master
      let smn := s.name ++ "-" ++ master_name
      let st :=
        if !(st.processed.contains smn) then
          { st with processed := st.processed ++ [smn] }
        else
          { st with ignore_macs := st.ignore_macs ++ [mac] }
      let netmask := master.netmask
      do
        let ip ←
          if master.ip_address ≠ "" then pure master.ip_address
          else find_ip_addr s.interfaces master_name "ipv4"
        let ipv6 ←
          if master.ipv6_address ≠ "" then pure master.ipv6_address
          else find_ip_addr s.interfaces master_name "ipv6"
        pure (gen_iface_common aw blend distro st iname iface_obj gateway
          netmask ip ipv6 master.dns_name master.dhcp_tag mac)
  else
    Except.ok (gen_iface_common aw blend distro st iname iface_obj gateway
      iface_obj.netmask iface_obj.ip_address iface_obj.ipv6_address
      iface_obj.dns_name iface_obj.dhcp_tag mac)

/-- `_IscManager._gen_system_config`: an unsupported system contributes the
empty mapping; otherwise the interfaces are processed in order starting
from the mapping holding the empty default tag, and every MAC marked for
removal is deleted from every tag at the end.  An exception raised by an
iteration (through `_find_ip_addr`) propagates out. -/
def gen_system_config (aw : Bool) (s : SystemR) (blend : BlendData)
    (distro : Option DistroR) :
    Except String (List (String × List (String × DhcpEntry))) :=
  if !is_management_supported s then Except.ok []
  else
    let st0 : GenState :=
      { dhcp_tags := [("default", [])], processed := [], ignore_macs := [],
        generic_cnt := 0 }
    do
      let stF ← s.interfaces.foldlM
        (fun st ni => gen_iface aw s blend distro st ni.1 ni.2) st0
      pure (stF.dhcp_tags.map (fun tv =>
        (tv.1, tv.2.filter (fun me => !(stF.ignore_macs.contains me.1)))))

/-- The settings remap applied by `Item._resolve`: `owners` consults the
settings field `default_ownership`, every other property consults its own
name. -/
def settings_field_name (p : String) : String :=
  if p = "owners" then "default_ownership" else p

theorem assocLookup_assocSet_self {α : Type} (d : List (String × α))
    (k : String) (v : α) : assocLookup (assocSet d k v) k = some v := by
  induction d with
  | nil => simp [assocSet, assocLookup]
  | cons hd tl ih =>
    obtain ⟨k1, v1⟩ := hd
    by_cases h : k1 = k
    · simp [assocSet, assocLookup, h]
    · simp [assocSet, assocLookup, h, ih]

theorem assocLookup_assocSet_ne {α : Type} (d : List (String × α))
    (k q : String) (v : α) (h : q ≠ k) :
    assocLookup (assocSet d k v) q = assocLookup d q := by
  induction d with
  | nil => simp [assocSet, assocLookup, Ne.symm h]
  | cons hd tl ih =>
    obtain ⟨k1, v1⟩ := hd
    by_cases h1 : k1 = k
    · subst h1
      simp [assocSet, assocLookup, Ne.symm h]
    · by_cases h2 : k1 = q
      · simp [assocSet, assocLookup, h1, h2, h]
      · simp [assocSet, assocLookup, h1, h2, ih]

instance {ε α : Type} [DecidableEq ε] [DecidableEq α] :
    DecidableEq (Except ε α) := fun a b =>
  match a, b with
  | Except.ok x, Except.ok y =>
    if h : x = y then isTrue (by rw [h])
    else isFalse (by intro hh; injection hh; contradiction)
  | Except.error x, Except.error y =>
    if h : x = y then isTrue (by rw [h])
    else isFalse (by intro hh; injection hh; contradiction)
  | Except.ok _, Except.error _ =>
    isFalse (by intro hh; exact Except.noConfusion hh)
  | Except.error _, Except.ok _ =>
    isFalse (by intro hh; exact Except.noConfusion hh)

theorem assocHasKey_assocSet {α : Type} (d : List (String × α))
    (k q : String) (v : α) (h : assocHasKey d q = true) :
    assocHasKey (assocSet d k v) q = true := by
  by_cases hq : q = k
  · subst hq
    simp [assocHasKey, assocLookup_assocSet_self]
  · simpa [assocHasKey, assocLookup_assocSet_ne d k q v hq] using h

theorem assocHasKey_assocSet_ne {α : Type} (d : List (String × α))
    (k q : String) (v : α) (h : q ≠ k) :
    assocHasKey (assocSet d k v) q = assocHasKey d q := by
  simp [assocHasKey, assocLookup_assocSet_ne d k q v h]

/-- The base instance dictionary shared by the sample items used in the
concrete scenarios below. -/
def itemDictBase (uid name parent : String) : List (String × Value) :=
  [("_ctime", Value.vint 0), ("_mtime", Value.vint 0),
   ("_uid", Value.vstr uid), ("_name", Value.vstr name),
   ("_comment", Value.vstr ""), ("_parent", Value.vstr parent),
   ("_depth", Value.vint 0),
   ("_kernel_options", Value.vdict []),
   ("_kernel_options_post", Value.vdict []),
   ("_autoinstall_meta", Value.vdict []),
   ("_fetchable_files", Value.vdict []),
   ("_boot_files", Value.vdict []),
   ("_template_files", Value.vdict []),
   ("_owners", VALUE_INHERITED),
   ("_mgmt_classes", VALUE_INHERITED),
   ("_mgmt_parameters", Value.vdict [])]

/-- A fully constructed in-memory sample item. -/
def mkItem (tn ct uid name parent : String)
    (extra : List (String × Value)) : ItemR :=
  { typeName := tn, collectionType := ct, hasInitialized := true,
    inmemory := true, cacheRaw := none, cacheResolved := none,
    dict := assocUpdate (itemDictBase uid name parent) extra }

/-- Sample distro with explicit owners and kernel options. -/
def d1item : ItemR :=
  mkItem "distro" "distro" "uid-d1" "d1" ""
    [("_owners", Value.vlist ["dadmin"]),
     ("_kernel_options", Value.vdict [("a", DVal.dstr "b")])]

/-- Sample profile inheriting everything, conceptually parented on the
sample distro through its `_distro` reference. -/
def p1item : ItemR :=
  mkItem "profile" "profile" "uid-p1" "p1" ""
    [("_distro", Value.vstr "d1"),
     ("_kernel_options", VALUE_INHERITED)]

/-- Sample settings carrying only a default ownership. -/
def settings1 : SettingsT :=
  { fields := [("default_ownership", Value.vlist ["admin"])],
    cache_enabled := false, always_write_dhcp_entries := false }

/-- Sample world for the resolution scenarios. -/
def w1 : World := { items := [d1item, p1item], settings := settings1 }

example : logical_parent 5 w1 p1item = some d1item := by decide

/-- C1: for every item and resolvable scalar attribute, a stored value
other than the INHERITED sentinel is returned as stored; a sentinel value
resolves to the logical parent's resolved value when a parent exposing the
attribute exists; without a logical parent the settings field is returned
when present, otherwise its `default_` variant, with `owners` consulting
the settings field `default_ownership` (`settings_field_name`). -/
theorem C1_resolve_scalar
    (w : World) (fuel : Nat) (i : ItemR) (p : String) (v : Value)
    (hkind : getterKind p = GetterKind.scalarInherit)
    (hproxy : strStartsWith p "proxy_url_" = false)
    (hattr : assocLookup i.dict ("_" ++ p) = some v) :
    (v ≠ VALUE_INHERITED → getProp (fuel + 1) w i p = Except.ok v)
    ∧ (v = VALUE_INHERITED →
        ∀ lp, logical_parent fuel w i = some lp → hasattrProp lp p = true →
          getProp (fuel + 1) w i p = getProp fuel w lp p)
    ∧ (v = VALUE_INHERITED → logical_parent fuel w i = none →
        (∀ sv, settingsGet w.settings (settings_field_name p) = some sv →
          getProp (fuel + 1) w i p = Except.ok sv)
        ∧ (settingsHas w.settings (settings_field_name p) = false →
          ∀ dv,
            settingsGet w.settings ("default_" ++ settings_field_name p) =
              some dv →
            getProp (fuel + 1) w i p = Except.ok dv)) := by
  have hstep : getProp (fuel + 1) w i p =
      resolveStep (getProp fuel) (logical_parent fuel) w i p := by
    simp [getProp, hkind]
  refine ⟨?_, ?_, ?_⟩
  · intro hne
    rw [hstep]
    simp [resolveStep, hproxy, hattr, hne]
  · intro hv lp hlp hexp
    subst hv
    rw [hstep]
    simp [resolveStep, hproxy, hattr, hlp, hexp]
  · intro hv hlp
    subst hv
    constructor
    · intro sv hsv
      rw [hstep]
      have hhas : settingsHas w.settings (settings_field_name p) = true := by
        simp [settingsHas, assocHasKey, settingsGet] at hsv ⊢
        simp [hsv]
      simp [resolveStep, hproxy, hattr, hlp, hhas, settings_field_name] at *
      simp [hsv]
    · intro hhas dv hdv
      rw [hstep]
      have hhasd :
          settingsHas w.settings ("default_" ++ settings_field_name p) =
            true := by
        simp [settingsHas, assocHasKey, settingsGet] at hdv ⊢
        simp [hdv]
      simp [resolveStep, hproxy, hattr, hlp, hhas, hhasd,
        settings_field_name] at *
      simp [hdv]

/-- Witness for C1 on the sample world: the profile's sentinel `owners`
hops to the distro, whose stored owners list is returned as stored. -/
theorem C1_resolve_scalar_witness :
    getProp 5 w1 p1item "owners" = getProp 4 w1 d1item "owners"
    ∧ getProp 4 w1 d1item "owners" = Except.ok (Value.vlist ["dadmin"]) := by
  constructor
  · exact (C1_resolve_scalar w1 4 p1item "owners" VALUE_INHERITED
      (by decide) (by decide) (by decide)).2.1 rfl d1item (by decide)
      (by decide)
  · exact (C1_resolve_scalar w1 3 d1item "owners" (Value.vlist ["dadmin"])
      (by decide) (by decide) (by decide)).1 (by decide)

example : getProp 5 w1 p1item "owners" = Except.ok (Value.vlist ["dadmin"]) := by
  decide

example : getProp 5 w1 d1item "owners" = Except.ok (Value.vlist ["dadmin"]) := by
  decide

example :
    getProp 5 w1 p1item "kernel_options" =
      Except.ok (Value.vdict [("a", DVal.dstr "b")]) := by decide

/-- Sample distro whose kernel options carry two keys, for the
annihilation scenario. -/
def annParent : ItemR :=
  mkItem "distro" "distro" "uid-ad" "ad" ""
    [("_kernel_options", Value.vdict [("a", DVal.dint 1), ("b", DVal.dint 2)])]

/-- Sample profile overlaying a deletion marker on an inherited key. -/
def annChild : ItemR :=
  mkItem "profile" "profile" "uid-ac" "ac" ""
    [("_distro", Value.vstr "ad"),
     ("_kernel_options", Value.vdict [("b", DVAL_DELETE)])]

/-- Sample world for the annihilation scenario. -/
def w2 : World := { items := [annParent, annChild], settings := settings1 }

/-- C2: a resolvable dict attribute resolves to the logical parent's
resolved mapping (or, absent a parent, the settings mapping) overlaid with
the item's own raw mapping when it is not the INHERITED sentinel, with
deletion-marker annihilation applied last. -/
theorem C2_resolve_dict
    (w : World) (fuel : Nat) (i : ItemR) (p : String) (v : Value)
    (hkind : getterKind p = GetterKind.dictInherit)
    (hattr : assocLookup i.dict ("_" ++ p) = some v) :
    (∀ lp pd, logical_parent fuel w i = some lp → hasattrProp lp p = true →
        getProp fuel w lp p = Except.ok (Value.vdict pd) →
        (∀ od, v = Value.vdict od →
          getProp (fuel + 1) w i p =
            Except.ok (Value.vdict
              (dict_annihilate (assocUpdate (assocUpdate [] pd) od))))
        ∧ (v = VALUE_INHERITED →
          getProp (fuel + 1) w i p =
            Except.ok (Value.vdict (dict_annihilate (assocUpdate [] pd)))))
    ∧ (logical_parent fuel w i = none →
        ∀ sd, settingsGet w.settings p = some (Value.vdict sd) →
        (∀ od, v = Value.vdict od →
          getProp (fuel + 1) w i p =
            Except.ok (Value.vdict
              (dict_annihilate (assocUpdate (assocUpdate [] sd) od))))
        ∧ (v = VALUE_INHERITED →
          getProp (fuel + 1) w i p =
            Except.ok (Value.vdict (dict_annihilate (assocUpdate [] sd))))) := by
  have hstep : getProp (fuel + 1) w i p =
      resolveDictStep (getProp fuel) (logical_parent fuel) w i p := by
    simp [getProp, hkind]
  constructor
  · intro lp pd hlp hexp hpd
    constructor
    · intro od hv
      subst hv
      rw [hstep]
      simp [resolveDictStep, hattr, hlp, hexp, hpd, expectDict,
        VALUE_INHERITED, Bind.bind, Except.bind, Functor.map, Except.map,
        Pure.pure, Except.pure]
    · intro hv
      subst hv
      rw [hstep]
      simp [resolveDictStep, hattr, hlp, hexp, hpd, expectDict,
        VALUE_INHERITED, Bind.bind, Except.bind, Functor.map, Except.map,
        Pure.pure, Except.pure]
  · intro hlp sd hsd
    simp only [settingsGet] at hsd
    have hhas : settingsHas w.settings p = true := by
      simp [settingsHas, assocHasKey]
      simp [hsd]
    constructor
    · intro od hv
      subst hv
      rw [hstep]
      simp [resolveDictStep, hattr, hlp, hhas, hsd, expectDict,
        VALUE_INHERITED, settingsGet, Bind.bind, Except.bind, Functor.map,
        Except.map, Option.getD, Pure.pure, Except.pure]
    · intro hv
      subst hv
      rw [hstep]
      simp [resolveDictStep, hattr, hlp, hhas, hsd, expectDict,
        VALUE_INHERITED, settingsGet, Bind.bind, Except.bind, Functor.map,
        Except.map, Option.getD, Pure.pure, Except.pure]

/-- Witness for C2 on the sample worlds: a parent mapping of two keys with
a child deletion-marker overlay resolves to the single surviving key, and a
child sentinel under a one-key parent resolves to the parent mapping. -/
theorem C2_resolve_dict_witness :
    getProp 5 w2 annChild "kernel_options" =
      Except.ok (Value.vdict [("a", DVal.dint 1)])
    ∧ getProp 5 w1 p1item "kernel_options" =
      Except.ok (Value.vdict [("a", DVal.dstr "b")]) := by
  constructor
  · have h := ((C2_resolve_dict w2 4 annChild "kernel_options"
      (Value.vdict [("b", DVAL_DELETE)]) (by decide) (by decide)).1 annParent
      [("a", DVal.dint 1), ("b", DVal.dint 2)] (by decide) (by decide)
      (by decide)).1 [("b", DVAL_DELETE)] rfl
    exact h.trans (by decide)
  · have h := ((C2_resolve_dict w1 4 p1item "kernel_options" VALUE_INHERITED
      (by decide) (by decide)).1 d1item [("a", DVal.dstr "b")] (by decide)
      (by decide) (by decide)).2 rfl
    exact h.trans (by decide)

/-- Settings object with no resolution fields at all. -/
def settings5 : SettingsT :=
  { fields := [], cache_enabled := false, always_write_dhcp_entries := false }

/-- Sample item with no logical parent whose `owners` is the sentinel. -/
def c5item : ItemR := mkItem "distro" "distro" "uid-c5" "c5" "" []

/-- Sample world for the missing-settings scenario. -/
def w5 : World := { items := [c5item], settings := settings5 }

/-- C5: with no logical parent, a sentinel `owners` and a settings object
carrying neither `default_ownership` nor `default_default_ownership`, the
source builds an `AttributeError` without raising it and falls through to
returning the unresolved sentinel: resolution reports success with the
`<<inherit>>` value instead of surfacing an error. -/
theorem C5_resolution_failure_swallowed :
    getProp 5 w5 c5item "owners" = Except.ok VALUE_INHERITED := by decide

/-- C6: constructing an item runs `BaseItem.__init__`, whose very first
attribute write `self._ctime = 0.0` passes through `Item.__setattr__`; the
guard reads `self._has_initialized`, which no code has assigned yet, so
every construction raises `AttributeError` instead of completing. -/
theorem C6_construction_raises :
    item_init "u-c6" =
      Except.error "AttributeError: object has no attribute _has_initialized" := by
  decide

/-- Sample profile A for the parent-assignment scenarios. -/
def itemA : ItemR := mkItem "profile" "profile" "uid-A" "A" "" []

/-- Sample profile B for the parent-assignment scenarios. -/
def itemB : ItemR := mkItem "profile" "profile" "uid-B" "B" "" []

/-- Sample world holding the two profiles (caching disabled so that the
assignments leave the world untouched). -/
def wAB : World := { items := [itemA, itemB], settings := settings5 }

/-- Profile A after the accepted assignment of B as its parent. -/
def itemA1 : ItemR :=
  ((set_parent 5 wAB itemA (Value.vstr "B")).toOption.map Prod.snd).getD itemA

/-- The world after the first parent assignment. -/
def wAB2 : World := { wAB with items := [itemA1, itemB] }

/-- Profile B after the accepted assignment of A as its parent. -/
def itemB1 : ItemR :=
  ((set_parent 5 wAB2 itemB (Value.vstr "A")).toOption.map Prod.snd).getD itemB

/-- Counterexample to C4: assigning `A.parent = B` succeeds, and the
subsequent assignment `B.parent = A` also succeeds instead of failing, so
the setter admits a two-item parent cycle. -/
theorem C4_cycle_counterexample :
    (set_parent 5 wAB itemA (Value.vstr "B")).isOk = true
    ∧ (set_parent 5 wAB2 itemB (Value.vstr "A")).isOk = true
    ∧ itemParentName itemA1 = "B" ∧ itemParentName itemB1 = "A" := by decide

/-- C4 (amended): only direct self-parentage is rejected at assignment
time; no transitive cycle check exists, and the two-item cycle assignment
`A.parent = B; B.parent = A` is accepted by the second call. -/
theorem C4_no_cycle_check
    (w : World) (fuel : Nat) (i : ItemR) (hname : itemName i ≠ "") :
    set_parent fuel w i (Value.vstr (itemName i)) =
      Except.error "CX: self parentage is weird"
    ∧ (set_parent 5 wAB2 itemB (Value.vstr "A")).isOk = true
    ∧ itemParentName itemB1 = "A" := by
  refine ⟨?_, by decide, by decide⟩
  simp [set_parent, hname]

/-- Witness for C4 on the sample world: B rejects itself as parent. -/
theorem C4_no_cycle_check_witness :
    itemName itemB ≠ ""
    ∧ set_parent 5 wAB2 itemB (Value.vstr (itemName itemB)) =
        Except.error "CX: self parentage is weird" :=
  ⟨by decide, (C4_no_cycle_check wAB2 5 itemB (by decide)).1⟩

theorem clean_cache_snd_dict (fuel : Nat) (w : World) (i : ItemR)
    (nm : Option String) : ((clean_cache fuel w i nm).2).dict = i.dict := by
  by_cases h1 : i.inmemory <;> by_cases h2 : w.settings.cache_enabled <;>
    simp [clean_cache, h1, clean_dict_cache, clean_dict_cache_slots, h2]

theorem setattr_raw_dict (fuel : Nat) (w : World) (i : ItemR) (nm : String)
    (v : Value) :
    ((setattr_raw fuel w i nm v).2).dict = assocSet i.dict nm v := by
  by_cases h : is_dict_key nm && i.hasInitialized <;>
    simp [setattr_raw, h, clean_cache_snd_dict]

/-- C9: assigning a parent requires the referenced item to be registered in
the same collection and rejects self-reference; rejections raise before any
state is written (the embedding returns no state on error, mirroring the
raise-before-assignment order of the source); an accepted assignment stores
the reference and sets depth to the parent's depth plus one; the empty
string clears the reference. -/
theorem C9_parent_assignment
    (fuel : Nat) (w : World) (i : ItemR) (n : String) :
    (n ≠ "" → n = itemName i →
      set_parent fuel w i (Value.vstr n) =
        Except.error "CX: self parentage is weird")
    ∧ (n ≠ "" → n ≠ itemName i → collectionGet w i.collectionType n = none →
      set_parent fuel w i (Value.vstr n) =
        Except.error "CX: parent not found, inheritance not possible")
    ∧ (∀ found, n ≠ "" → n ≠ itemName i →
      collectionGet w i.collectionType n = some found →
      ∀ w1 i1, set_parent fuel w i (Value.vstr n) = Except.ok (w1, i1) →
        itemParentName i1 = n ∧ itemDepth i1 = itemDepth found + 1)
    ∧ (∀ found, n ≠ "" → n ≠ itemName i →
      collectionGet w i.collectionType n = some found →
      (set_parent fuel w i (Value.vstr n)).isOk = true)
    ∧ (∀ w1 i1, set_parent fuel w i (Value.vstr "") = Except.ok (w1, i1) →
      itemParentName i1 = "")
    ∧ (set_parent fuel w i (Value.vstr "")).isOk = true := by
  refine ⟨?_, ?_, ?_, ?_, ?_, ?_⟩
  · intro hne hself
    subst hself
    simp [set_parent, hne]
  · intro hne hself hnone
    simp [set_parent, hne, hself, hnone]
  · intro found hne hself hfound w1 i1 hok
    simp only [set_parent, if_neg hne, if_neg hself, hfound] at hok
    have hi1 : i1 =
        (setattr_raw fuel (setattr_raw fuel w i "_parent" (Value.vstr n)).1
          (setattr_raw fuel w i "_parent" (Value.vstr n)).2 "_depth"
          (Value.vint (itemDepth found + 1))).2 := by
      have := congrArg (fun e =>
        match e with
        | Except.ok wi => wi.2
        | Except.error _ => i1) hok
      simpa using this.symm
    subst hi1
    constructor
    · simp [itemParentName, strField, setattr_raw_dict,
        assocLookup_assocSet_ne _ "_depth" "_parent" _ (by decide),
        assocLookup_assocSet_self]
    · simp [itemDepth, intField, setattr_raw_dict, assocLookup_assocSet_self]
  · intro found hne hself hfound
    simp [set_parent, hne, hself, hfound, Except.isOk, Except.toBool]
  · intro w1 i1 hok
    simp only [set_parent, if_pos rfl] at hok
    have hi1 : i1 = (setattr_raw fuel w i "_parent" (Value.vstr "")).2 := by
      have := congrArg (fun e =>
        match e with
        | Except.ok wi => wi.2
        | Except.error _ => i1) hok
      simpa using this.symm
    subst hi1
    simp [itemParentName, strField, setattr_raw_dict, assocLookup_assocSet_self]
  · simp [set_parent, Except.isOk, Except.toBool]

/-- Witness for C9 on the sample world: A accepts B as parent, stores the
reference and takes depth one. -/
theorem C9_parent_assignment_witness :
    set_parent 5 wAB itemA (Value.vstr "B") = Except.ok (wAB, itemA1)
    ∧ itemParentName itemA1 = "B" ∧ itemDepth itemA1 = 1 := by
  have hok : set_parent 5 wAB itemA (Value.vstr "B") =
      Except.ok (wAB, itemA1) := by decide
  have h := ((C9_parent_assignment 5 wAB itemA "B").2.2.1 itemB (by decide)
    (by decide) (by decide)) wAB itemA1 hok
  exact ⟨hok, h.1, by simpa using h.2⟩

/-- C7: when a resolved `to_dict` call succeeds, the produced snapshot is
stored in the resolved memo slot, and an immediately repeated call with no
intervening mutation returns the identical mapping by reading the memo
slot (the second call takes the cache-hit branch and performs no
projection). -/
theorem C7_to_dict_memoized
    (fuel : Nat) (w : World) (i : ItemR) (d : List (String × Value))
    (i1 : ItemR) (h : to_dict fuel w i true = Except.ok (d, i1)) :
    get_dict_cache i1 true = some d
    ∧ to_dict fuel w i1 true = Except.ok (d, i1) := by
  by_cases hm : i.inmemory
  · rw [to_dict, if_neg (by simp [hm])] at h
    cases hc : get_dict_cache i true with
    | some cached =>
      rw [hc] at h
      have hd : cached = d ∧ i = i1 := by
        have h1 := congrArg (fun e =>
          match e with
          | Except.ok pr => pr
          | Except.error _ => (d, i1)) h
        simpa using h1
      obtain ⟨hd1, hd2⟩ := hd
      subst hd1
      subst hd2
      refine ⟨hc, ?_⟩
      rw [to_dict, if_neg (by simp [hm]), hc]
    | none =>
      rw [hc] at h
      cases he : to_dict_entries fuel w i true i.dict with
      | error e =>
        rw [he] at h
        simp [Bind.bind, Except.bind] at h
      | ok value =>
        rw [he] at h
        simp only [Bind.bind, Except.bind] at h
        have h1 := congrArg (fun e =>
          match e with
          | Except.ok pr => pr
          | Except.error _ => (d, i1)) h
        simp at h1
        have hfst := h1.1
        have hsnd := h1.2
        have hcache : get_dict_cache i1 true = some d := by
          rw [← hsnd, ← hfst]
          simp [get_dict_cache, set_dict_cache]
        refine ⟨hcache, ?_⟩
        have hmem : i1.inmemory = true := by
          rw [← hsnd]
          simp [set_dict_cache, hm]
        rw [to_dict, if_neg (by simp [hmem]), hcache]
  · rw [to_dict, if_pos (by simp [hm])] at h
    exact absurd h (by simp)

/-- The first resolved projection of the sample profile, with the item
state it produces. -/
def c7pair : List (String × Value) × ItemR :=
  (to_dict 6 w1 p1item true).toOption.getD ([], p1item)

/-- Witness for C7 on the sample profile: the first call succeeds, stores
the snapshot in the resolved memo slot, and the repeated call returns the
identical pair. -/
theorem C7_to_dict_memoized_witness :
    to_dict 6 w1 p1item true = Except.ok (c7pair.1, c7pair.2)
    ∧ get_dict_cache c7pair.2 true = some c7pair.1
    ∧ to_dict 6 w1 c7pair.2 true = Except.ok (c7pair.1, c7pair.2) := by
  have h : to_dict 6 w1 p1item true = Except.ok (c7pair.1, c7pair.2) := by
    decide
  have h2 := C7_to_dict_memoized 6 w1 p1item c7pair.1 c7pair.2 h
  exact ⟨h, h2.1, h2.2⟩

/-- Settings object with caching enabled. -/
def cacheSettings : SettingsT :=
  { fields := [], cache_enabled := true, always_write_dhcp_entries := false }

/-- Sample parent profile for the cache-invalidation scenario. -/
def c3parent : ItemR := mkItem "profile" "profile" "uid-cp" "cp" "" []

/-- Sample child profile with both memo slots populated. -/
def c3child : ItemR :=
  { mkItem "profile" "profile" "uid-cc" "cc" "cp" [] with
    cacheRaw := some [("x", Value.vint 1)],
    cacheResolved := some [("y", Value.vint 2)] }

/-- Sample world for the cache-invalidation scenario. -/
def w3 : World := { items := [c3parent, c3child], settings := cacheSettings }

/-- C3: writing a dictionary-view attribute on a fully constructed item
runs the cache invalidation before the assignment; when caching is
enabled, the item is in memory, the attribute is inheritable and the item
is registered under its name in a non-root collection, every descendant's
world copy keeps its whole state except that its resolved memo slot is
cleared (its raw memo in particular is untouched), and the item's own two
memo slots are cleared; when caching is disabled or the item is not in
memory, the write changes nothing but the instance dictionary. -/
theorem C3_cache_invalidation
    (fuel : Nat) (w : World) (i : ItemR) (n : String) (v : Value)
    (hinit : i.hasInitialized = true)
    (hkey : is_dict_key n = true) :
    (w.settings.cache_enabled = true → i.inmemory = true →
      isInheritableProp (strDrop n 1) = true →
      i.collectionType ≠ "generic" →
      (collectionGet w i.collectionType (itemName i)).isSome = true →
      (∀ j, j ∈ w.items →
        (descendants fuel w i).any
          (fun d2 => itemUid d2 == itemUid j) = true →
        itemUid j ≠ itemUid i →
        { j with cacheResolved := none } ∈
          ((setattr_raw fuel w i n v).1).items)
      ∧ ((setattr_raw fuel w i n v).2.cacheRaw = none
        ∧ (setattr_raw fuel w i n v).2.cacheResolved = none))
    ∧ (w.settings.cache_enabled = false →
      (setattr_raw fuel w i n v).1 = w
      ∧ (setattr_raw fuel w i n v).2 = { i with dict := assocSet i.dict n v })
    ∧ (i.inmemory = false →
      (setattr_raw fuel w i n v).1 = w
      ∧ (setattr_raw fuel w i n v).2 = { i with dict := assocSet i.dict n v })
    ∧ (setattr_raw fuel w i n v).2.dict = assocSet i.dict n v := by
  have hcond : (is_dict_key n && i.hasInitialized) = true := by
    simp [hkey, hinit]
  refine ⟨?_, ?_, ?_, setattr_raw_dict fuel w i n v⟩
  · intro hce hmem hinh hct hreg
    have hctb : (i.collectionType == "generic") = false :=
      beq_eq_false_iff_ne.mpr hct
    have hw : (setattr_raw fuel w i n v).1 =
        clearOwnCacheInWorld (clearResolvedCaches w (descendants fuel w i))
          i := by
      simp [setattr_raw, hcond, clean_cache, hmem, clean_dict_cache, hce,
        hinh, hctb, hreg]
    constructor
    · intro j hj hdesc hne
      rw [hw]
      have h1 : { j with cacheResolved := none } ∈
          (clearResolvedCaches w (descendants fuel w i)).items := by
        have hmm := List.mem_map_of_mem (fun j2 =>
          if (descendants fuel w i).any
              (fun d2 => itemUid d2 == itemUid j2) then
            { j2 with cacheResolved := none }
          else j2) hj
        simpa [clearResolvedCaches, hdesc] using hmm
      have huid : (itemUid { j with cacheResolved := none } == itemUid i) =
          false := by
        have : itemUid { j with cacheResolved := none } = itemUid j := by
          simp [itemUid, strField]
        rw [this]
        exact beq_eq_false_iff_ne.mpr hne
      have hmm2 := List.mem_map_of_mem (fun j2 =>
        if itemUid j2 == itemUid i then clean_dict_cache_slots j2 else j2) h1
      simpa [clearOwnCacheInWorld, huid] using hmm2
    · have hsnd : (setattr_raw fuel w i n v).2 =
          { clean_dict_cache_slots i with dict := assocSet i.dict n v } := by
        simp [setattr_raw, hcond, clean_cache, hmem, clean_dict_cache, hce,
          clean_dict_cache_slots]
      rw [hsnd]
      simp [clean_dict_cache_slots]
  · intro hce
    by_cases hmem : i.inmemory <;>
      simp [setattr_raw, hcond, clean_cache, hmem, clean_dict_cache, hce]
  · intro hmem
    simp [setattr_raw, hcond, clean_cache, hmem]

/-- Witness for C3 on the sample world: writing kernel options on the
parent clears the child's resolved memo while keeping its raw memo, and
clears both of the parent's own memo slots. -/
theorem C3_cache_invalidation_witness :
    { c3child with cacheResolved := none } ∈
      ((setattr_raw 3 w3 c3parent "_kernel_options"
        (Value.vdict [("k", DVal.dstr "v")])).1).items
    ∧ (setattr_raw 3 w3 c3parent "_kernel_options"
        (Value.vdict [("k", DVal.dstr "v")])).2.cacheRaw = none
    ∧ (setattr_raw 3 w3 c3parent "_kernel_options"
        (Value.vdict [("k", DVal.dstr "v")])).2.cacheResolved = none := by
  have h := (C3_cache_invalidation 3 w3 c3parent "_kernel_options"
    (Value.vdict [("k", DVal.dstr "v")]) (by decide) (by decide)).1
    (by decide) (by decide) (by decide) (by decide) (by decide)
  exact ⟨h.1 c3child (by decide) (by decide) (by decide), h.2.1, h.2.2⟩

/-- Counterexample to C8: a mapping holding only the legacy key
`kickstart` is silently accepted by `from_dict` instead of failing with an
unrecognised-key error naming it: the deprecated keys are popped before the
recognition loop. -/
theorem C8_legacy_key_counterexample :
    from_dict 5 w1 p1item [("kickstart", Value.vstr "/p.ks")] =
      ((w1, p1item), none) := by decide

theorem underscore_head (y : String) :
    strStartsWith ("_" ++ y) "_" = true := by
  simp [strStartsWith, String.data_append, List.isPrefixOf]

theorem write_present_stable_d (d : List (String × Value)) (tgt : String)
    (vv : Value) (hpres : assocHasKey d tgt = true) :
    ∀ q, assocHasKey (assocSet d tgt vv) q = assocHasKey d q := by
  intro q
  by_cases hq : q = tgt
  · subst hq
    rw [hpres]
    simp [assocHasKey, assocLookup_assocSet_self]
  · exact assocHasKey_assocSet_ne _ _ _ _ hq

theorem write_public_stable_d (d : List (String × Value)) (tgt : String)
    (vv : Value) (htgt : strStartsWith tgt "_" = false) :
    ∀ q, strStartsWith q "_" = true →
      assocHasKey (assocSet d tgt vv) q = assocHasKey d q := by
  intro q hu
  apply assocHasKey_assocSet_ne
  intro he
  rw [he] at hu
  rw [hu] at htgt
  exact Bool.noConfusion htgt

/-- Recognition stability of a successful property write: a setter applied
to a recognised lowercased key neither adds nor removes underscore-prefixed
instance fields (keys that do not start with an underscore may be added by
the plain-`setattr` fallback), and keeps `_depth` present. -/
theorem setattrProp_stable
    (fuel : Nat) (w : World) (i : ItemR) (p : String) (v : Value)
    (w1 : World) (i1 : ItemR)
    (hok : setattrProp fuel w i p v = Except.ok (w1, i1))
    (hguard : hasInternalField i ("_" ++ p) = true)
    (hplow : strStartsWith p "_" = false)
    (hdepth : assocHasKey i.dict "_depth" = true) :
    (∀ q, assocHasKey i1.dict ("_" ++ q) = assocHasKey i.dict ("_" ++ q))
    ∧ assocHasKey i1.dict "_depth" = true := by
  have hfin : ∀ tgt vv, i1.dict = assocSet i.dict tgt vv →
      assocHasKey i.dict tgt = true →
      (∀ q, assocHasKey i1.dict ("_" ++ q) = assocHasKey i.dict ("_" ++ q))
      ∧ assocHasKey i1.dict "_depth" = true := by
    intro tgt vv hd hpres
    rw [hd]
    exact ⟨fun q => write_present_stable_d i.dict tgt vv hpres ("_" ++ q),
      (write_present_stable_d i.dict tgt vv hpres "_depth").trans hdepth ▸
        (by rw [write_present_stable_d i.dict tgt vv hpres "_depth", hdepth])⟩
  have hpub : ∀ tgt vv, i1.dict = assocSet i.dict tgt vv →
      strStartsWith tgt "_" = false →
      (∀ q, assocHasKey i1.dict ("_" ++ q) = assocHasKey i.dict ("_" ++ q))
      ∧ assocHasKey i1.dict "_depth" = true := by
    intro tgt vv hd htgt
    rw [hd]
    refine ⟨fun q =>
      write_public_stable_d i.dict tgt vv htgt ("_" ++ q)
        (underscore_head q), ?_⟩
    rw [assocHasKey_assocSet _ _ _ _ hdepth]
  have hsnd : ∀ (x : World × ItemR),
      Except.ok x = (Except.ok (w1, i1) : Except String (World × ItemR)) →
      x.2 = i1 := by
    intro x hx
    exact congrArg Prod.snd (Except.ok.inj hx)
  have hdg : ∀ nm : String,
      (["_inmemory", "_has_initialized", "_cache",
        "_last_cached_mtime"].contains nm) = false →
      hasInternalField i nm = true → assocHasKey i.dict nm = true := by
    intro nm hnm hg
    simp only [hasInternalField, hnm, Bool.or_false] at hg
    exact hg
  have pair_snd_dict : ∀ {w2 : World} {i2 : ItemR} {tgt : String}
      {vv : Value}, setattr_raw fuel w2 i2 tgt vv = (w1, i1) →
      i1.dict = assocSet i2.dict tgt vv := by
    intro w2 i2 tgt vv hok2
    have hi : i1 = (setattr_raw fuel w2 i2 tgt vv).2 := by rw [hok2]
    rw [hi, setattr_raw_dict]
  by_cases h1 : p = "name"
  · subst h1
    have hpres := hdg _ (by decide) hguard
    cases v <;> simp [setattrProp] at hok
    rename_i s
    by_cases hv : validName s
    · rw [if_pos hv] at hok
      try simp at hok
      exact hfin _ _ (pair_snd_dict hok) hpres
    · rw [if_neg hv] at hok
      exact absurd hok (by simp)
  by_cases h2 : p = "comment"
  · subst h2
    have hpres := hdg _ (by decide) hguard
    simp only [setattrProp] at hok
    try simp at hok
    exact hfin _ _ (pair_snd_dict hok) hpres
  by_cases h3 : p = "depth"
  · subst h3
    have hpres := hdg _ (by decide) hguard
    cases v <;> simp [setattrProp] at hok
    rename_i n
    exact hfin _ _ (pair_snd_dict hok) hpres
  by_cases h4 : p = "ctime"
  · subst h4
    have hpres := hdg _ (by decide) hguard
    cases v <;> simp [setattrProp] at hok
    rename_i n
    exact hfin _ _ (pair_snd_dict hok) hpres
  by_cases h5 : p = "mtime"
  · subst h5
    have hpres := hdg _ (by decide) hguard
    cases v <;> simp [setattrProp] at hok
    rename_i n
    exact hfin _ _ (pair_snd_dict hok) hpres
  by_cases h6 : p = "parent"
  · subst h6
    have hpres := hdg _ (by decide) hguard
    cases v <;> simp [setattrProp, set_parent] at hok
    rename_i s
    by_cases hs0 : s = ""
    · rw [if_pos hs0] at hok
      try simp at hok
      exact hfin _ _ (pair_snd_dict hok) hpres
    · rw [if_neg hs0] at hok
      by_cases hs1 : s = itemName i
      · rw [if_pos hs1] at hok
        exact absurd hok (by simp)
      · rw [if_neg hs1] at hok
        cases hcg : collectionGet w i.collectionType s with
        | none => rw [hcg] at hok; exact absurd hok (by simp)
        | some found =>
          rw [hcg] at hok
          try simp at hok
          have hd : i1.dict =
              assocSet (assocSet i.dict "_parent" (Value.vstr s)) "_depth"
                (Value.vint (itemDepth found + 1)) := by
            rw [pair_snd_dict hok, setattr_raw_dict]
          have hstep1 := write_present_stable_d i.dict "_parent"
            (Value.vstr s) hpres
          have hdepth2 : assocHasKey
              (assocSet i.dict "_parent" (Value.vstr s)) "_depth" = true := by
            rw [hstep1 "_depth"]; exact hdepth
          have hstep2 := write_present_stable_d
            (assocSet i.dict "_parent" (Value.vstr s)) "_depth"
            (Value.vint (itemDepth found + 1)) hdepth2
          constructor
          · intro q
            rw [hd, hstep2 ("_" ++ q), hstep1 ("_" ++ q)]
          · rw [hd, hstep2 "_depth", hdepth2]
  by_cases h7 : p = "owners"
  · subst h7
    have hpres := hdg _ (by decide) hguard
    cases v <;> simp [setattrProp, Bind.bind, Except.bind,
      input_string_or_list] at hok
    · rename_i s
      by_cases hs : Value.vstr s = VALUE_INHERITED
      · rw [if_pos hs] at hok
        try simp at hok
        exact hfin _ _ (pair_snd_dict hok) hpres
      · rw [if_neg hs] at hok
        by_cases hs2 : s = ""
        · rw [if_pos hs2] at hok
          try simp at hok
          exact hfin _ _ (pair_snd_dict hok) hpres
        · rw [if_neg hs2] at hok
          try simp at hok
          exact hfin _ _ (pair_snd_dict hok) hpres
    · rename_i l
      try simp at hok
      exact hfin _ _ (pair_snd_dict hok) hpres
  by_cases h8 : p = "mgmt_classes"
  · subst h8
    have hpres := hdg _ (by decide) hguard
    cases v <;> simp [setattrProp, Bind.bind, Except.bind,
      input_string_or_list] at hok
    · rename_i s
      by_cases hs : Value.vstr s = VALUE_INHERITED
      · rw [if_pos hs] at hok
        try simp at hok
        exact hfin _ _ (pair_snd_dict hok) hpres
      · rw [if_neg hs] at hok
        by_cases hs2 : s = ""
        · rw [if_pos hs2] at hok
          try simp at hok
          exact hfin _ _ (pair_snd_dict hok) hpres
        · rw [if_neg hs2] at hok
          try simp at hok
          exact hfin _ _ (pair_snd_dict hok) hpres
    · rename_i l
      try simp at hok
      exact hfin _ _ (pair_snd_dict hok) hpres
  by_cases h9 : p = "kernel_options"
  · subst h9
    have hpres := hdg _ (by decide) hguard
    cases v <;> simp [setattrProp, Bind.bind, Except.bind,
      input_string_or_dict] at hok
    · rename_i s
      by_cases hs : Value.vstr s = VALUE_INHERITED
      · rw [if_pos hs] at hok
        try simp at hok
        exact hfin _ _ (pair_snd_dict hok) hpres
      · rw [if_neg hs] at hok
        by_cases hs2 : s = ""
        · rw [if_pos hs2] at hok
          try simp at hok
          exact hfin _ _ (pair_snd_dict hok) hpres
        · rw [if_neg hs2] at hok
          exact absurd hok (by simp)
    · rename_i dd
      try simp at hok
      exact hfin _ _ (pair_snd_dict hok) hpres
  by_cases h10 : p = "kernel_options_post"
  · subst h10
    have hpres := hdg _ (by decide) hguard
    cases v <;> simp [setattrProp, Bind.bind, Except.bind,
      input_string_or_dict] at hok
    · rename_i s
      by_cases hs : Value.vstr s = VALUE_INHERITED
      · rw [if_pos hs] at hok
        try simp at hok
        exact hfin _ _ (pair_snd_dict hok) hpres
      · rw [if_neg hs] at hok
        by_cases hs2 : s = ""
        · rw [if_pos hs2] at hok
          try simp at hok
          exact hfin _ _ (pair_snd_dict hok) hpres
        · rw [if_neg hs2] at hok
          exact absurd hok (by simp)
    · rename_i dd
      try simp at hok
      exact hfin _ _ (pair_snd_dict hok) hpres
  by_cases h11 : p = "autoinstall_meta"
  · subst h11
    have hpres := hdg _ (by decide) hguard
    cases v <;> simp [setattrProp, Bind.bind, Except.bind,
      input_string_or_dict] at hok
    · rename_i s
      by_cases hs : Value.vstr s = VALUE_INHERITED
      · rw [if_pos hs] at hok
        try simp at hok
        exact hfin _ _ (pair_snd_dict hok) hpres
      · rw [if_neg hs] at hok
        by_cases hs2 : s = ""
        · rw [if_pos hs2] at hok
          try simp at hok
          exact hfin _ _ (pair_snd_dict hok) hpres
        · rw [if_neg hs2] at hok
          exact absurd hok (by simp)
    · rename_i dd
      try simp at hok
      exact hfin _ _ (pair_snd_dict hok) hpres
  by_cases h12 : p = "fetchable_files"
  · subst h12
    have hpres := hdg _ (by decide) hguard
    cases v <;> simp [setattrProp, Bind.bind, Except.bind,
      input_string_or_dict] at hok
    · rename_i s
      by_cases hs : Value.vstr s = VALUE_INHERITED
      · rw [if_pos hs] at hok
        try simp at hok
        exact hfin _ _ (pair_snd_dict hok) hpres
      · rw [if_neg hs] at hok
        by_cases hs2 : s = ""
        · rw [if_pos hs2] at hok
          try simp at hok
          exact hfin _ _ (pair_snd_dict hok) hpres
        · rw [if_neg hs2] at hok
          exact absurd hok (by simp)
    · rename_i dd
      try simp at hok
      exact hfin _ _ (pair_snd_dict hok) hpres
  by_cases h13 : p = "boot_files"
  · subst h13
    have hpres := hdg _ (by decide) hguard
    cases v <;> simp [setattrProp, Bind.bind, Except.bind,
      input_string_or_dict] at hok
    · rename_i s
      by_cases hs : Value.vstr s = VALUE_INHERITED
      · rw [if_pos hs] at hok
        try simp at hok
        exact hfin _ _ (pair_snd_dict hok) hpres
      · rw [if_neg hs] at hok
        by_cases hs2 : s = ""
        · rw [if_pos hs2] at hok
          try simp at hok
          exact hfin _ _ (pair_snd_dict hok) hpres
        · rw [if_neg hs2] at hok
          exact absurd hok (by simp)
    · rename_i dd
      try simp at hok
      exact hfin _ _ (pair_snd_dict hok) hpres
  by_cases h14 : p = "template_files"
  · subst h14
    have hpres := hdg _ (by decide) hguard
    cases v <;> simp [setattrProp, Bind.bind, Except.bind,
      input_string_or_dict_no_inherit] at hok
    · rename_i s
      by_cases hs : Value.vstr s = VALUE_INHERITED
      · rw [if_pos hs] at hok
        exact absurd hok (by simp)
      · rw [if_neg hs] at hok
        by_cases hs2 : s = ""
        · rw [if_pos hs2] at hok
          try simp at hok
          exact hfin _ _ (pair_snd_dict hok) hpres
        · rw [if_neg hs2] at hok
          exact absurd hok (by simp)
    · rename_i dd
      try simp at hok
      exact hfin _ _ (pair_snd_dict hok) hpres
  by_cases h15 : p = "mgmt_parameters"
  · subst h15
    have hpres := hdg _ (by decide) hguard
    cases v <;> simp [setattrProp] at hok
    · rename_i s
      by_cases hs : Value.vstr s = VALUE_INHERITED
      · rw [if_pos hs] at hok
        try simp at hok
        exact hfin _ _ (pair_snd_dict hok) hpres
      · rw [if_neg hs] at hok
        by_cases hs2 : s = ""
        · rw [if_pos hs2] at hok
          try simp at hok
          exact hfin _ _ (pair_snd_dict hok) hpres
        · rw [if_neg hs2] at hok
          exact absurd hok (by simp)
    · rename_i dd
      try simp at hok
      exact hfin _ _ (pair_snd_dict hok) hpres
  by_cases h16 : p = "is_subobject"
  · subst h16
    have hpres := hdg _ (by decide) hguard
    cases v <;> simp [setattrProp] at hok
    rename_i b
    exact hfin _ _ (pair_snd_dict hok) hpres
  by_cases h17 : p = "inmemory"
  · subst h17
    cases v <;> simp [setattrProp] at hok
    rename_i b
    have hd : i1.dict = i.dict := by rw [← hok.2]
    rw [hd]
    exact ⟨fun q => rfl, hdepth⟩
  by_cases h18 : p = "uid"
  · subst h18
    have hpres := hdg _ (by decide) hguard
    cases hl : assocLookup i.dict "_uid" with
    | none => simp [setattrProp, hl] at hok
    | some stored =>
      simp [setattrProp, hl] at hok
      by_cases hsv : stored = v
      · rw [if_pos hsv] at hok
        try simp at hok
        exact hfin _ _ (pair_snd_dict hok) hpres
      · rw [if_neg hsv] at hok
        exact absurd hok (by simp)
  by_cases h19 : p = "cache"
  · subst h19
    simp [setattrProp] at hok
  by_cases h20 : p = "logical_parent"
  · subst h20
    simp [setattrProp] at hok
  by_cases h21 : p = "children"
  · subst h21
    simp [setattrProp] at hok
  by_cases h22 : p = "descendants"
  · subst h22
    simp [setattrProp] at hok
  by_cases h23 : p = "get_parent"
  · subst h23
    simp [setattrProp] at hok
  · simp [setattrProp, h1, h2, h3, h4, h5, h6, h7, h8, h9, h10, h11, h12,
      h13, h14, h15, h16, h17, h18, h19, h20, h21, h22, h23] at hok
    exact hpub p v (pair_snd_dict hok) hplow

/-- Sequential application of the recognised keys of a mapping through the
property setters, skipping unrecognised keys: the state-change skeleton of
the `from_dict` loop. -/
def apply_recognized (fuel : Nat) (w : World) (i : ItemR) :
    List (String × Value) → Except String (World × ItemR)
  | [] => Except.ok (w, i)
  | (k, v) :: rest =>
    let lowered := strToLower k
    if hasInternalField i ("_" ++ lowered) then
      match setattrProp fuel w i lowered v with
      | Except.ok wi => apply_recognized fuel wi.1 wi.2 rest
      | Except.error e => Except.error e
    else apply_recognized fuel w i rest

/-- The keys of a mapping whose lowercased form matches no internal field
of the item. -/
def unrecognized_keys (i : ItemR) (ds : List (String × Value)) :
    List String :=
  (ds.filter (fun kv =>
    !(hasInternalField i ("_" ++ strToLower kv.1)))).map Prod.fst

theorem from_dict_loop_spec (fuel : Nat) (ds : List (String × Value)) :
    ∀ (w : World) (i : ItemR) (unrec : List String),
      (∀ kv ∈ ds, strStartsWith (strToLower kv.1) "_" = false) →
      assocHasKey i.dict "_depth" = true →
      ∀ (w1 : World) (i1 : ItemR),
        apply_recognized fuel w i ds = Except.ok (w1, i1) →
        from_dict_loop fuel w i ds unrec =
          ((w1, i1), unrec ++ unrecognized_keys i ds, none) := by
  induction ds with
  | nil =>
    intro w i unrec hkeys hdepth w1 i1 hap
    simp [apply_recognized] at hap
    simp [from_dict_loop, unrecognized_keys, hap.1, hap.2]
  | cons kv rest ih =>
    intro w i unrec hkeys hdepth w1 i1 hap
    obtain ⟨k, v⟩ := kv
    by_cases hrec : hasInternalField i ("_" ++ strToLower k) = true
    · simp only [apply_recognized, hrec, if_true] at hap
      cases hset : setattrProp fuel w i (strToLower k) v with
      | error e =>
        rw [hset] at hap
        exact absurd hap (by simp)
      | ok wi =>
        rw [hset] at hap
        have hst := setattrProp_stable fuel w i (strToLower k) v wi.1 wi.2
          (by rw [hset]) hrec (hkeys (k, v) (List.mem_cons_self _ _)) hdepth
        have ihh := ih wi.1 wi.2 unrec
          (fun kv2 hm => hkeys kv2 (List.mem_cons_of_mem _ hm)) hst.2 w1 i1
          hap
        have hcong : unrecognized_keys wi.2 rest = unrecognized_keys i rest := by
          unfold unrecognized_keys
          congr 1
          apply List.filter_congr
          intro kv2 hm
          have h2 : hasInternalField wi.2 ("_" ++ strToLower kv2.1) =
              hasInternalField i ("_" ++ strToLower kv2.1) := by
            simp only [hasInternalField]
            rw [hst.1 (strToLower kv2.1)]
          rw [h2]
        simp only [from_dict_loop, hrec, if_true, hset]
        rw [ihh, hcong]
        simp [unrecognized_keys, hrec]
    · have hrecf : hasInternalField i ("_" ++ strToLower k) = false := by
        simpa using hrec
      simp [apply_recognized, hrecf] at hap
      have ihh := ih w i (unrec ++ [k])
        (fun kv2 hm => hkeys kv2 (List.mem_cons_of_mem _ hm)) hdepth w1 i1
        hap
      simp [from_dict_loop, hrecf, ihh, unrecognized_keys]

/-- C8 (amended): `from_dict` first silently drops the legacy keys
`ks_meta`, `kickstart` and `children`; when nothing remains it returns
unchanged; otherwise it matches the remaining keys case-insensitively
against the internal field names, applies every recognised key in order
through its property setter, and fails with an error naming exactly the
remaining unrecognised keys, keeping the applied state (no rollback). -/
theorem C8_amended
    (fuel : Nat) (w : World) (i : ItemR) (d : List (String × Value))
    (hkeys : ∀ kv ∈ remove_depreacted_dict_keys d,
      strStartsWith (strToLower kv.1) "_" = false)
    (hdepth : assocHasKey i.dict "_depth" = true) :
    (remove_depreacted_dict_keys d = [] →
      from_dict fuel w i d = ((w, i), none))
    ∧ (remove_depreacted_dict_keys d ≠ [] →
      ∀ w1 i1,
        apply_recognized fuel w { i with hasInitialized := false }
          (remove_depreacted_dict_keys d) = Except.ok (w1, i1) →
        from_dict fuel w i d =
          (clean_cache fuel w1
            { i1 with hasInitialized := i.hasInitialized } none,
           if unrecognized_keys i (remove_depreacted_dict_keys d) = []
           then none
           else some (FromDictErr.keyErr
             (unrecognized_keys i (remove_depreacted_dict_keys d))))) := by
  constructor
  · intro hemp
    simp [from_dict, hemp]
  · intro hne w1 i1 hap
    have hspec := from_dict_loop_spec fuel (remove_depreacted_dict_keys d)
      w { i with hasInitialized := false } [] hkeys hdepth w1 i1 hap
    have hun : unrecognized_keys { i with hasInitialized := false }
        (remove_depreacted_dict_keys d) =
        unrecognized_keys i (remove_depreacted_dict_keys d) := rfl
    rw [hun] at hspec
    simp only [from_dict]
    rw [if_neg (by simpa [List.isEmpty_iff] using hne)]
    rw [hspec]
    by_cases hu : unrecognized_keys i (remove_depreacted_dict_keys d) = []
    · simp [hu]
    · simp [hu, List.isEmpty_iff]

/-- Sample item for the `from_dict` scenario. -/
def c8item : ItemR := mkItem "profile" "profile" "uid-c8" "c8" "" []

/-- Sample world for the `from_dict` scenario. -/
def c8world : World := { items := [c8item], settings := settings5 }

/-- Sample input mapping: a case-variant recognised key, an unrecognised
key, and a silently dropped legacy key. -/
def c8d : List (String × Value) :=
  [("NAME", Value.vstr "c8b"), ("bogus_key", Value.vint 1),
   ("ks_meta", Value.vstr "z")]

/-- The state produced by applying the recognised keys of the sample
mapping. -/
def c8res : World × ItemR :=
  (apply_recognized 5 c8world { c8item with hasInitialized := false }
    (remove_depreacted_dict_keys c8d)).toOption.getD (c8world, c8item)

/-- Witness for C8 on the sample mapping: `NAME` is applied, `ks_meta` is
silently dropped, and the error names exactly `bogus_key` while the
applied state is kept. -/
theorem C8_amended_witness :
    remove_depreacted_dict_keys c8d ≠ []
    ∧ from_dict 5 c8world c8item c8d =
        (clean_cache 5 c8res.1
          { c8res.2 with hasInitialized := c8item.hasInitialized } none,
         some (FromDictErr.keyErr ["bogus_key"]))
    ∧ itemName c8res.2 = "c8b" := by
  refine ⟨by decide, ?_, by decide⟩
  have h := (C8_amended 5 c8world c8item c8d (by decide) (by decide)).2
    (by decide) c8res.1 c8res.2 (by decide)
  exact h.trans (by decide)

/-- Sample bond master interface carrying the shared IPv4 and IPv6
addressing data but no MAC. -/
def bondMaster : NetIface :=
  { interface_type := "bond", interface_master := "", mac_address := "",
    ip_address := "10.0.0.5", ipv6_address := "fd00::5",
    netmask := "255.255.255.0", dns_name := "host0", dhcp_tag := "",
    if_gateway := "", static := false }

/-- Sample bond slave with the given MAC address. -/
def bondSlave (mac : String) : NetIface :=
  { interface_type := "bond_slave", interface_master := "bond0",
    mac_address := mac, ip_address := "", ipv6_address := "", netmask := "",
    dns_name := "", dhcp_tag := "", if_gateway := "", static := false }

/-- Sample system with two slaves of the same bond sharing one MAC. -/
def c10sys : SystemR :=
  { name := "sys1", gateway := "10.0.0.1",
    interfaces := [("bond0", bondMaster), ("eth0", bondSlave "aa:bb:cc"),
      ("eth1", bondSlave "aa:bb:cc")] }

/-- Sample blended data enabling netboot with no overrides. -/
def c10blend : BlendData :=
  { next_server_v6 := "", next_server_v4 := "", filename := "",
    netboot_enabled := true, hostname := "", owner := "",
    enable_ipxe := false, name_servers := [], mgmt_parameters := "",
    dhcp_tag := none }

/-- Counterexample to C10: with two slaves of the same bond master sharing
one MAC, the final per-tag mapping contains no entry for that MAC at all —
the first occurrence is not kept; the duplicate's MAC lands in
`ignore_macs` and the closing loop deletes the key from every tag. -/
theorem C10_duplicate_mac_counterexample :
    gen_system_config true c10sys c10blend none =
      Except.ok [("default", [])] := by
  decide

set_option maxHeartbeats 2000000 in
theorem gen_iface_common_state (aw : Bool) (blend : BlendData)
    (distro : Option DistroR) (st : GenState) (iname : String)
    (iface_obj : NetIface) (g nm ip ip6 h t mac : String) :
    (gen_iface_common aw blend distro st iname iface_obj g nm ip ip6 h t
      mac).processed = st.processed
    ∧ (gen_iface_common aw blend distro st iname iface_obj g nm ip ip6 h t
      mac).ignore_macs = st.ignore_macs := by
  unfold gen_iface_common
  repeat' split
  all_goals exact ⟨rfl, rfl⟩

theorem gen_iface_common_processed (aw : Bool) (blend : BlendData)
    (distro : Option DistroR) (st : GenState) (iname : String)
    (iface_obj : NetIface) (g nm ip ip6 h t mac : String) :
    (gen_iface_common aw blend distro st iname iface_obj g nm ip ip6 h t
      mac).processed = st.processed :=
  (gen_iface_common_state aw blend distro st iname iface_obj g nm ip ip6 h
    t mac).1

theorem gen_iface_common_ignore (aw : Bool) (blend : BlendData)
    (distro : Option DistroR) (st : GenState) (iname : String)
    (iface_obj : NetIface) (g nm ip ip6 h t mac : String) :
    (gen_iface_common aw blend distro st iname iface_obj g nm ip ip6 h t
      mac).ignore_macs = st.ignore_macs :=
  (gen_iface_common_state aw blend distro st iname iface_obj g nm ip ip6 h
    t mac).2

theorem gen_iface_nonslave_state (aw : Bool) (s : SystemR)
    (blend : BlendData) (distro : Option DistroR) (st : GenState)
    (iname : String) (iface_obj : NetIface)
    (hsl : slaveTypes.contains iface_obj.interface_type = false) :
    ∃ st2, gen_iface aw s blend distro st iname iface_obj = Except.ok st2
      ∧ st2.processed = st.processed
      ∧ st2.ignore_macs = st.ignore_macs := by
  have hsl2 : ¬ (iface_obj.interface_type ∈ slaveTypes) := by
    simpa using hsl
  refine ⟨gen_iface_common aw blend distro st iname iface_obj
      (if iface_obj.if_gateway ≠ "" then iface_obj.if_gateway
        else s.gateway)
      iface_obj.netmask iface_obj.ip_address iface_obj.ipv6_address
      iface_obj.dns_name iface_obj.dhcp_tag iface_obj.mac_address,
    ?_, ?_, ?_⟩
  · simp [gen_iface, hsl2]
  · rw [gen_iface_common_processed]
  · rw [gen_iface_common_ignore]

theorem gen_iface_slave_state (aw : Bool) (s : SystemR)
    (blend : BlendData) (distro : Option DistroR) (st : GenState)
    (iname : String) (iface_obj : NetIface) (master : NetIface)
    (hsl : slaveTypes.contains iface_obj.interface_type = true)
    (hlk : assocLookup s.interfaces iface_obj.interface_master =
      some master)
    (hip : master.ip_address ≠ "") (hip6 : master.ipv6_address ≠ "") :
    (st.processed.contains
        (s.name ++ "-" ++ iface_obj.interface_master) = false →
      ∃ st2, gen_iface aw s blend distro st iname iface_obj =
          Except.ok st2
        ∧ st2.processed =
          st.processed ++ [s.name ++ "-" ++ iface_obj.interface_master]
        ∧ st2.ignore_macs = st.ignore_macs)
    ∧ (st.processed.contains
        (s.name ++ "-" ++ iface_obj.interface_master) = true →
      ∃ st2, gen_iface aw s blend distro st iname iface_obj =
          Except.ok st2
        ∧ st2.processed = st.processed
        ∧ st2.ignore_macs =
          st.ignore_macs ++ [iface_obj.mac_address]) := by
  have hsl2 : iface_obj.interface_type ∈ slaveTypes := by simpa using hsl
  constructor
  · intro hc
    have hc2 : ¬ (s.name ++ "-" ++ iface_obj.interface_master ∈
        st.processed) := by simpa using hc
    refine ⟨gen_iface_common aw blend distro
        { st with processed :=
            st.processed ++ [s.name ++ "-" ++ iface_obj.interface_master] }
        iname iface_obj
        (if iface_obj.if_gateway ≠ "" then iface_obj.if_gateway
          else s.gateway)
        master.netmask master.ip_address master.ipv6_address
        master.dns_name master.dhcp_tag iface_obj.mac_address,
      ?_, ?_, ?_⟩
    · simp [gen_iface, hsl2, hlk, hc2, hip, hip6, Bind.bind, Except.bind,
        Pure.pure, Except.pure]
    · rw [gen_iface_common_processed]
    · rw [gen_iface_common_ignore]
  · intro hc
    have hc2 : s.name ++ "-" ++ iface_obj.interface_master ∈
        st.processed := by simpa using hc
    refine ⟨gen_iface_common aw blend distro
        { st with ignore_macs :=
            st.ignore_macs ++ [iface_obj.mac_address] }
        iname iface_obj
        (if iface_obj.if_gateway ≠ "" then iface_obj.if_gateway
          else s.gateway)
        master.netmask master.ip_address master.ipv6_address
        master.dns_name master.dhcp_tag iface_obj.mac_address,
      ?_, ?_, ?_⟩
    · simp [gen_iface, hsl2, hlk, hc2, hip, hip6, Bind.bind, Except.bind,
        Pure.pure, Except.pure]
    · rw [gen_iface_common_processed]
    · rw [gen_iface_common_ignore]

theorem assocHasKey_filter_ignored (l : List (String × DhcpEntry))
    (ign : List String) (m : String) (hm : ign.contains m = true) :
    assocHasKey (l.filter (fun me => !(ign.contains me.1))) m = false := by
  induction l with
  | nil => simp [assocHasKey, assocLookup]
  | cons hd tl ih =>
    by_cases hk : hd.1 = m
    · rw [List.filter_cons]
      rw [show (!(ign.contains hd.1)) = false from by rw [hk, hm]; rfl]
      simpa using ih
    · rw [List.filter_cons]
      by_cases hp : ign.contains hd.1 = true
      · rw [show (!(ign.contains hd.1)) = false from by rw [hp]; rfl]
        simpa using ih
      · rw [show (!(ign.contains hd.1)) = true from by
          rw [show ign.contains hd.1 = false from by simpa using hp]; rfl]
        simp only [if_true]
        simp only [assocHasKey, assocLookup, hk, if_false]
        simpa [assocHasKey] using ih

/-- C10 (amended): when two slave interfaces of the same bond master carry
the same non-empty MAC address and the master carries both addresses (so
the `_find_ip_addr` fallback, which always raises or returns nothing, is
not taken), that MAC is removed entirely from every tag of the returned
mapping — no occurrence is kept, because the duplicate lands in the ignore
set and the closing loop deletes the key; and a system that does not
satisfy the management precondition contributes an empty configuration. -/
theorem C10_duplicate_mac_dropped
    (aw : Bool) (blend : BlendData) (distro : Option DistroR)
    (sname gw mn a b m : String) (master i1 i2 : NetIface)
    (hslave1 : slaveTypes.contains i1.interface_type = true)
    (hslave2 : slaveTypes.contains i2.interface_type = true)
    (hm1 : i1.interface_master = mn)
    (hm2 : i2.interface_master = mn)
    (hmac1 : i1.mac_address = m)
    (hmac2 : i2.mac_address = m)
    (hmnot : slaveTypes.contains master.interface_type = false)
    (hm : m ≠ "")
    (hip : master.ip_address ≠ "") (hip6 : master.ipv6_address ≠ "") :
    (∀ tags, gen_system_config aw
        (SystemR.mk sname gw [(mn, master), (a, i1), (b, i2)]) blend
        distro = Except.ok tags →
      ∀ tv ∈ tags, assocHasKey tv.2 m = false)
    ∧ (∀ s2 : SystemR, is_management_supported s2 = false →
      gen_system_config aw s2 blend distro = Except.ok []) := by
  constructor
  · set s : SystemR := SystemR.mk sname gw [(mn, master), (a, i1), (b, i2)]
      with hsdef
    set st0 : GenState :=
      { dhcp_tags := [("default", [])], processed := [], ignore_macs := [],
        generic_cnt := 0 } with hst0
    have hmacb : (i2.mac_address == "") = false := by
      rw [hmac2]
      exact beq_eq_false_iff_ne.mpr hm
    have hsup : is_management_supported s = true := by
      simp [is_management_supported, hsdef, hmacb]
    obtain ⟨st1, h1ok, h1p, h1i⟩ :=
      gen_iface_nonslave_state aw s blend distro st0 mn master hmnot
    have hlk1 : assocLookup s.interfaces i1.interface_master =
        some master := by
      rw [hm1, hsdef]
      simp [assocLookup]
    obtain ⟨st2, h2ok, h2p, h2i⟩ :=
      (gen_iface_slave_state aw s blend distro st1 a i1 master hslave1
        hlk1 hip hip6).1 (by rw [hm1, h1p, hst0]; simp)
    have hlk2 : assocLookup s.interfaces i2.interface_master =
        some master := by
      rw [hm2, hsdef]
      simp [assocLookup]
    have h3cond : st2.processed.contains
        (s.name ++ "-" ++ i2.interface_master) = true := by
      rw [hm2, h2p, h1p, hst0, hm1]
      simp
    obtain ⟨st3, h3ok, h3p, h3i⟩ :=
      (gen_iface_slave_state aw s blend distro st2 b i2 master hslave2
        hlk2 hip hip6).2 h3cond
    have hig : st3.ignore_macs.contains m = true := by
      rw [h3i, h2i, h1i, hst0, hmac2]
      simp
    have hintf : s.interfaces = [(mn, master), (a, i1), (b, i2)] := by
      rw [hsdef]
    have hgoal : gen_system_config aw s blend distro =
        Except.ok (st3.dhcp_tags.map (fun tv2 =>
          (tv2.1, tv2.2.filter (fun me =>
            !(st3.ignore_macs.contains me.1))))) := by
      simp [gen_system_config, hsup, hintf, List.foldlM, h1ok, h2ok, h3ok,
        Bind.bind, Except.bind, Pure.pure, Except.pure]
    intro tags htags
    rw [hgoal] at htags
    have hteq := Except.ok.inj htags
    intro tv htv
    rw [← hteq] at htv
    obtain ⟨tv0, htv0, hveq⟩ := List.mem_map.mp htv
    rw [← hveq]
    exact assocHasKey_filter_ignored tv0.2 st3.ignore_macs m hig
  · intro s2 hns
    simp [gen_system_config, hns]

/-- Witness for C10 on the sample system: both slaves of `bond0` share one
MAC, and no tag of the generated configuration carries that MAC. -/
theorem C10_duplicate_mac_dropped_witness :
    slaveTypes.contains (bondSlave "aa:bb:cc").interface_type = true
    ∧ (∀ tags, gen_system_config true c10sys c10blend none =
        Except.ok tags →
      ∀ tv ∈ tags, assocHasKey tv.2 "aa:bb:cc" = false) :=
  ⟨by decide,
    (C10_duplicate_mac_dropped true c10blend none "sys1" "10.0.0.1" "bond0"
      "eth0" "eth1" "aa:bb:cc" bondMaster (bondSlave "aa:bb:cc")
      (bondSlave "aa:bb:cc") (by decide) (by decide) (by decide) (by decide)
      (by decide) (by decide) (by decide) (by decide) (by decide)
      (by decide)).1⟩

end Cobbler
